import Mathlib

/-!
Shallow embedding of the comparison engine in
`comparison_tool/src/utils/comparison_engine.py`.

Tables (`pandas.DataFrame`) are modelled as a header of named, typed columns
plus a list of rows (each row a list of cell values aligned with the header).
Cell values are nulls, integers, or strings; floating-point columns are not
modelled (no claim depends on float arithmetic), so the numeric statistics of
the column summary carry exact integer sums and elide mean/std.

Python truthiness matters in several places (`if not t_col`, `if not
self.mapping`, `if self.join_columns`, `if not columns`) and is modelled
explicitly: the empty string, the empty list and `None` are falsy.
-/

namespace CompareEngine

/-- A cell value of a table: null (NaN/None), an integer, or a string. -/
inductive Value where
  | vnull : Value
  | vint : Int → Value
  | vstr : String → Value
deriving DecidableEq, Inhabited

/-- The inferred dtype of a column, as `numpy` classifies it. -/
inductive DType where
  | dtInt : DType
  | dtObj : DType
deriving DecidableEq, Inhabited

/-- Models `np.issubdtype(dtype, np.number)`. -/
def DType.isNumeric : DType → Bool
  | .dtInt => true
  | .dtObj => false

/-- Models `str(dtype)`. -/
def DType.dname : DType → String
  | .dtInt => "int64"
  | .dtObj => "object"

/-- A column header entry: its name and dtype. -/
structure ColMeta where
  name : String
  dtype : DType
deriving DecidableEq, Inhabited

/-- A `pandas.DataFrame`: named typed columns and rows of cells. -/
structure DF where
  header : List ColMeta
  rows : List (List Value)
deriving DecidableEq, Inhabited

/-- Models `pd.DataFrame()`, the empty frame. -/
def emptyDF : DF := { header := [], rows := [] }

/-- The list of column names of a frame, `df.columns`. -/
def DF.colNames (df : DF) : List String := df.header.map (·.name)

/-- Models `len(df)`, the row count. -/
def DF.nRows (df : DF) : Nat := df.rows.length

/-- Cell of a row under the first header column with the given name
(`row[name]` with uniquely named columns); null when absent. -/
def lookupVal : List ColMeta → List Value → String → Value
  | [], _, _ => Value.vnull
  | _ :: _, [], _ => Value.vnull
  | m :: ms, v :: vs, n => if m.name == n then v else lookupVal ms vs n

/-- The values of the first column with the given name, `df[name]`. -/
def DF.colValues (df : DF) (n : String) : List Value :=
  df.rows.map (fun r => lookupVal df.header r n)

/-- The dtype of the first column with the given name, `df[name].dtype`. -/
def DF.colDtype (df : DF) (n : String) : DType :=
  match df.header.find? (fun m => m.name == n) with
  | some m => m.dtype
  | none => DType.dtObj

/-- Models boolean-mask row filtering `df[mask]` (columns preserved). -/
def DF.filterRows (df : DF) (p : List Value → Bool) : DF :=
  { df with rows := df.rows.filter p }

/-- Removes the cells of every column named `n` from one row. -/
def dropColVals : List ColMeta → List Value → String → List Value
  | [], _, _ => []
  | _ :: _, [], _ => []
  | m :: ms, v :: vs, n =>
    if m.name == n then dropColVals ms vs n else v :: dropColVals ms vs n

/-- Models `df.drop(n, axis=1)`: removes every column named `n`. -/
def DF.dropCol (df : DF) (n : String) : DF :=
  { header := df.header.filter (fun m => !(m.name == n)),
    rows := df.rows.map (fun r => dropColVals df.header r n) }

/-- One column-mapping entry, as produced by `auto_map_columns` and consumed
by `set_mapping` (dict with keys source/target/join/data_type/exclude). -/
structure MapEntry where
  source : String
  target : String
  join : Bool
  data_type : String
  exclude : Bool
deriving DecidableEq, Inhabited

/-- The `ComparisonEngine` instance state: the two frames given to
`__init__` plus the fields written by `set_mapping`.  `mapping = []` stands
for both Python `None` (initial state) and an empty list — the two are
indistinguishable to the engine, which only tests truthiness. -/
structure Engine where
  source_df : DF
  target_df : DF
  mapping : List MapEntry
  join_columns : List String
  excluded_columns : List String
deriving Inhabited

/-- Models `ComparisonEngine(source_df, target_df)`. -/
def mkEngine (s t : DF) : Engine :=
  { source_df := s, target_df := t, mapping := [], join_columns := [],
    excluded_columns := [] }

/-- Models `set_mapping(mapping, join_columns)`. -/
def setMapping (e : Engine) (m : List MapEntry) (jc : List String) : Engine :=
  { e with
    mapping := m,
    join_columns := jc,
    excluded_columns := (m.filter (·.exclude)).map (·.source) }

/-- Python truthiness of an optional string: `None` and `""` are falsy. -/
def pyTruthy : Option String → Bool
  | none => false
  | some s => !(s == "")

/-- Models Python `s.lower()`: character-wise lowering. -/
def strLower (s : String) : String :=
  String.mk (s.data.map Char.toLower)

/-- Models `''.join(e.lower() for e in s if e.isalnum())`. -/
def strClean (s : String) : String :=
  String.mk ((s.data.filter Char.isAlphanum).map Char.toLower)

/-- The per-source-column body of the `auto_map_columns` loop: exact match,
then case-insensitive match, then alphanumeric-stripped match, then `''`.
Each fallback fires when the previous result is falsy (`if not t_col`), so a
matched empty-string name also falls through. -/
def autoMapOne (target_cols : List String) (sdtype : DType) (s_col : String) :
    MapEntry :=
  let t1 : Option String := if target_cols.contains s_col then some s_col else none
  let t2 : Option String :=
    if pyTruthy t1 then t1
    else target_cols.find? (fun c => strLower c == strLower s_col)
  let t3 : Option String :=
    if pyTruthy t2 then t2
    else target_cols.find? (fun c => strClean c == strClean s_col)
  { source := s_col,
    target := (t3.getD ""),
    join := false,
    data_type := sdtype.dname,
    exclude := false }

/-- Models `auto_map_columns()`: one entry per source column, in order. -/
def autoMapColumns (e : Engine) : List MapEntry :=
  e.source_df.colNames.map
    (fun c => autoMapOne e.target_df.colNames (e.source_df.colDtype c) c)

/-- Models `df[[n1, ..., nk]]`: column selection by name, `KeyError` when a
requested name is absent.  Duplicate requested names yield duplicate
columns, as in pandas. -/
def selectCols (df : DF) (names : List String) : Except String DF :=
  if names.all (fun n => df.colNames.contains n) then
    .ok { header := names.map (fun n => { name := n, dtype := df.colDtype n }),
          rows := df.rows.map (fun r => names.map (fun n => lookupVal df.header r n)) }
  else
    .error ("KeyError: " ++
      String.intercalate ", " (names.filter (fun n => !(df.colNames.contains n))))

/-- Lookup in a Python dict built from an association list by comprehension:
for duplicate keys the last binding wins. -/
def pyDict (l : List (String × String)) (k : String) : Option String :=
  (l.reverse.find? (fun p => p.1 == k)).map (·.2)

/-- Models `df.rename(columns=d)`: every column name present as a key of the
dict is replaced by its value. -/
def renameCols (df : DF) (ren : List (String × String)) : DF :=
  { df with
    header := df.header.map (fun m =>
      match pyDict ren m.name with
      | some n2 => { m with name := n2 }
      | none => m) }

/-- Models `_prepare_dataframes()`: requires a truthy mapping, drops excluded
entries, selects the kept source/target columns by name, and renames the
kept, truthy-targeted target columns to their source names.  Operates on
copies, so the engine's own frames are untouched. -/
def prepareDataframes (e : Engine) : Except String (DF × DF) :=
  if e.mapping.isEmpty then
    .error "Mapping must be set before comparison"
  else
    let kept := e.mapping.filter (fun m => !m.exclude)
    match selectCols e.source_df (kept.map (·.source)) with
    | .error msg => .error msg
    | .ok source =>
      match selectCols e.target_df (kept.map (·.target)) with
      | .error msg => .error msg
      | .ok target0 =>
        let ren := (kept.filter (fun m => !(m.target == ""))).map
          (fun m => (m.target, m.source))
        .ok (source, renameCols target0 ren)

/-- Count of nulls in a column, `series.isnull().sum()`. -/
def countNulls (vals : List Value) : Nat := vals.countP (· == Value.vnull)

/-- Count of distinct non-null values, `series.nunique()` (dropna). -/
def nunique (vals : List Value) : Nat :=
  ((vals.filter (fun v => !(v == Value.vnull))).dedup).length

/-- Integer sum of a numeric column, `series.sum()` (nulls skipped). -/
def colSum (vals : List Value) : Int :=
  (vals.filterMap (fun v => match v with | .vint n => some n | _ => none)).sum

/-- One entry of `column_summary`: null/unique counts for both sides, plus
exact sums when the source column is numeric (float mean/std elided). -/
structure ColSummary where
  source_null_count : Nat
  target_null_count : Nat
  source_unique_count : Nat
  target_unique_count : Nat
  source_sum : Option Int
  target_sum : Option Int
deriving DecidableEq, Inhabited

/-- The `column_summary` statistics of one retained non-join column. -/
def mkColSummary (s t : DF) (c : String) : ColSummary :=
  { source_null_count := countNulls (s.colValues c),
    target_null_count := countNulls (t.colValues c),
    source_unique_count := nunique (s.colValues c),
    target_unique_count := nunique (t.colValues c),
    source_sum := if (s.colDtype c).isNumeric then some (colSum (s.colValues c)) else none,
    target_sum := if (s.colDtype c).isNumeric then some (colSum (t.colValues c)) else none }

/-- The columns `_generate_column_summary` iterates over: the source columns
that are not join columns, in source order. -/
def summaryCols (jc : List String) (s : DF) : List String :=
  s.colNames.filter (fun c => !(jc.contains c))

/-- The loop of `_generate_column_summary`: accessing `target[col]` for a
column absent from the prepared target raises `KeyError`, which propagates
to (and is caught by) `compare`'s outer handler. -/
def buildSummary (s t : DF) : List String → Except String (List (String × ColSummary))
  | [] => .ok []
  | c :: cs =>
    if t.colNames.contains c then
      match buildSummary s t cs with
      | .ok rest => .ok ((c, mkColSummary s t c) :: rest)
      | .error msg => .error msg
    else .error ("KeyError: " ++ c)

/-- Models `_generate_column_summary(source, target)`. -/
def generateColumnSummary (jc : List String) (s t : DF) :
    Except String (List (String × ColSummary)) :=
  buildSummary s t (summaryCols jc s)

/-- The value of `_generate_column_summary` when every iterated column is
present in the prepared target table. -/
def columnSummarySpec (jc : List String) (s t : DF) : List (String × ColSummary) :=
  (summaryCols jc s).map (fun c => (c, mkColSummary s t c))

/-- Models `series.value_counts().to_dict()`: the histogram of the non-null
values (pandas orders dict keys by frequency; only the key set and the
counts are observed downstream, so first-occurrence order is used). -/
def valueCounts (vals : List Value) : List (Value × Nat) :=
  ((vals.filter (fun v => !(v == Value.vnull))).dedup).map (fun v => (v, vals.count v))

/-- One entry of `distinct_values` (the `DistinctInfo` of the spec). -/
structure DistinctInfo where
  source_values : List (Value × Nat)
  target_values : List (Value × Nat)
  source_count : Nat
  target_count : Nat
  matching : Bool
deriving DecidableEq, Inhabited

/-- The `distinct_values` entry of one column: histograms, distinct counts,
and `matching` = set equality of the histogram key sets. -/
def mkDistinctInfo (s t : DF) (c : String) : DistinctInfo :=
  let sd := valueCounts (s.colValues c)
  let td := valueCounts (t.colValues c)
  { source_values := sd,
    target_values := td,
    source_count := sd.length,
    target_count := td.length,
    matching := (sd.map (·.1)).all (fun v => (td.map (·.1)).contains v) &&
                (td.map (·.1)).all (fun v => (sd.map (·.1)).contains v) }

/-- Models `get_distinct_values(columns)`: re-prepares the frames (returning
`{}` when that fails, per the outer handler), defaults a falsy `columns`
argument to the non-numeric columns present on both sides, and skips any
column not present on both sides. -/
def getDistinctValues (e : Engine) (columns : Option (List String)) :
    List (String × DistinctInfo) :=
  match prepareDataframes e with
  | .error _ => []
  | .ok (s, t) =>
    let cols0 := columns.getD []
    let cols :=
      if cols0.isEmpty then
        s.colNames.filter (fun c =>
          t.colNames.contains c && !(s.colDtype c).isNumeric)
      else cols0
    cols.filterMap (fun c =>
      if s.colNames.contains c && t.colNames.contains c then
        some (c, mkDistinctInfo s t c)
      else none)

/-- The join-key of a row, read off the named join columns. -/
def keyOf (df : DF) (jcols : List String) (r : List Value) : List Value :=
  jcols.map (fun c => lookupVal df.header r c)

/-- The header of `pd.merge(s, t, on=on, how='outer')` without the indicator:
left columns in order (join columns unsuffixed, other shared names suffixed
`_x`), then the right non-join columns (shared names suffixed `_y`). -/
def mergedHeader (s t : DF) (jcols : List String) : List ColMeta :=
  s.header.map (fun m =>
    if jcols.contains m.name then m
    else if t.colNames.contains m.name then { m with name := m.name ++ "_x" } else m)
  ++ (t.header.filter (fun m => !(jcols.contains m.name))).map (fun m =>
    if s.colNames.contains m.name then { m with name := m.name ++ "_y" } else m)

/-- One output row of the outer merge, from an optional left row and an
optional right row: left-column cells (join cells fall back to the right row
when the left row is absent), then right non-join cells; absent sides are
null. -/
def mRow (s t : DF) (jcols : List String) (sr tr : Option (List Value)) : List Value :=
  s.header.map (fun m =>
    match sr with
    | some r => lookupVal s.header r m.name
    | none =>
      if jcols.contains m.name then
        match tr with
        | some r => lookupVal t.header r m.name
        | none => Value.vnull
      else Value.vnull)
  ++ (t.header.filter (fun m => !(jcols.contains m.name))).map (fun m =>
    match tr with
    | some r => lookupVal t.header r m.name
    | none => Value.vnull)

/-- The left-driven rows of the outer merge, with their `_merge` indicator
appended: each left row either pairs with every key-equal right row
(`both`) or stands alone with nulled right cells (`left_only`). -/
def mergeLeftRows (s t : DF) (jcols : List String) : List (List Value) → List (List Value)
  | [] => []
  | r :: rs =>
    (let ms := t.rows.filter (fun tr => keyOf t jcols tr == keyOf s jcols r)
     if ms.isEmpty then [mRow s t jcols (some r) none ++ [Value.vstr "left_only"]]
     else ms.map (fun tr => mRow s t jcols (some r) (some tr) ++ [Value.vstr "both"]))
    ++ mergeLeftRows s t jcols rs

/-- The `right_only` rows of the outer merge: right rows whose key occurs in
no left row, with nulled left non-join cells. -/
def mergeRightOnlyRows (s t : DF) (jcols : List String) : List (List Value) :=
  (t.rows.filter (fun tr => !(s.rows.any (fun r => keyOf s jcols r == keyOf t jcols tr)))).map
    (fun tr => mRow s t jcols none (some tr) ++ [Value.vstr "right_only"])

/-- Models `pd.merge(s, t, on=on, how='outer', indicator=True)`:
`KeyError` when a join column is absent from either side; otherwise the
merged frame with a trailing `_merge` indicator column.  Null join keys
match null join keys, as in pandas. -/
def outerMerge (s t : DF) (jcols : List String) : Except String DF :=
  if jcols.all (fun c => s.colNames.contains c && t.colNames.contains c) then
    .ok { header := mergedHeader s t jcols ++ [{ name := "_merge", dtype := DType.dtObj }],
          rows := mergeLeftRows s t jcols s.rows ++ mergeRightOnlyRows s t jcols }
  else
    .error ("KeyError: " ++ String.intercalate ", "
      (jcols.filter (fun c => !(s.colNames.contains c && t.colNames.contains c))))

/-- The `row_counts` struct of the result. -/
structure RowCounts where
  source_name : String
  target_name : String
  source_count : Nat
  target_count : Nat
deriving DecidableEq, Inhabited

/-- The successful `compare()` result dict. -/
structure Results where
  match_status : Bool
  rows_match : Bool
  columns_match : Bool
  datacompy_report : String
  source_unmatched_rows : DF
  target_unmatched_rows : DF
  column_summary : List (String × ColSummary)
  row_counts : RowCounts
  distinct_values : List (String × DistinctInfo)
deriving DecidableEq, Inhabited

/-- The value returned by `compare()`: either the full results dict, or the
three-key failure dict `{'match_status': False, 'error': ..,
'datacompy_report': ..}` built by the outer exception handler (its
`match_status` is the literal `False`, encoded by the constructor). -/
inductive CompareOut where
  | ok (r : Results)
  | failed (error : String) (datacompy_report : String)
deriving DecidableEq, Inhabited

/-- The `match_status` entry of a `compare()` result (False on failure). -/
def CompareOut.matchStatus : CompareOut → Bool
  | .ok r => r.match_status
  | .failed _ _ => false

/-- Whether the spec's match-status conjunction holds of a `compare()`
result: `columns_match` and `rows_match` and both unmatched tables empty. -/
def CompareOut.conjStatus : CompareOut → Bool
  | .ok r => r.columns_match && r.rows_match &&
      r.source_unmatched_rows.rows.isEmpty && r.target_unmatched_rows.rows.isEmpty
  | .failed _ _ => false

/-- Set equality of the two column-name sets,
`set(source.columns) == set(target.columns)`. -/
def colSetEq (s t : DF) : Bool :=
  s.colNames.all (fun c => t.colNames.contains c) &&
  t.colNames.all (fun c => s.colNames.contains c)

/-- The textual report built in the detailed-comparison block: header lines,
row and unmatched counts, and per-join-column distinct counts when the
distinct-value dict is truthy. -/
def buildReport (srcN tgtN suN tuN : Nat) (jc : List String)
    (dv : List (String × DistinctInfo)) : String :=
  let base := ["Comparison Report",
    String.mk (List.replicate 50 '-'),
    "Source rows: " ++ toString srcN,
    "Target rows: " ++ toString tgtN,
    "Unmatched in source: " ++ toString suN,
    "Unmatched in target: " ++ toString tuN]
  let extra :=
    if dv.isEmpty then []
    else
      "\nValue Distribution in Join Columns:" ::
      (jc.map (fun c =>
        match dv.find? (fun p => p.1 == c) with
        | some p => ["\n" ++ c ++ ":",
            "Source unique values: " ++ toString p.2.source_count,
            "Target unique values: " ++ toString p.2.target_count]
        | none => [])).flatten
  String.intercalate "\n" (base ++ extra)

/-- Models `merged[merged['_merge'] == 'left_only'].drop('_merge', axis=1)`. -/
def suOf (merged : DF) : DF :=
  (merged.filterRows (fun r =>
    lookupVal merged.header r "_merge" == Value.vstr "left_only")).dropCol "_merge"

/-- Models `merged[merged['_merge'] == 'right_only'].drop('_merge', axis=1)`. -/
def tuOf (merged : DF) : DF :=
  (merged.filterRows (fun r =>
    lookupVal merged.header r "_merge" == Value.vstr "right_only")).dropCol "_merge"

/-- Models `compare()`.  The outer `try` is the `Except`-shaped preparation
and column-summary steps (the only raising steps before the detailed
block); `get_distinct_values` already returns `{}` on failure, so the
`try` around it adds nothing.  A failure inside the detailed-comparison
block (a raising `pd.merge`) is caught by the inner handler, which records
an error report in the otherwise-populated results dict. -/
def compare (e : Engine) : CompareOut :=
  match prepareDataframes e with
  | .error msg => .failed msg ("Comparison failed: " ++ msg)
  | .ok (source, target) =>
    match generateColumnSummary e.join_columns source target with
    | .error msg => .failed msg ("Comparison failed: " ++ msg)
    | .ok summary =>
      let columns_match := colSetEq source target
      let rows_match := source.nRows == target.nRows
      let dv := getDistinctValues e none
      let rc : RowCounts :=
        { source_name := "Source", target_name := "Target",
          source_count := source.nRows, target_count := target.nRows }
      if e.join_columns.isEmpty then
        .ok { match_status := false, rows_match := rows_match,
              columns_match := columns_match, datacompy_report := "",
              source_unmatched_rows := emptyDF, target_unmatched_rows := emptyDF,
              column_summary := summary, row_counts := rc, distinct_values := dv }
      else
        match outerMerge source target e.join_columns with
        | .error msg =>
          .ok { match_status := false, rows_match := rows_match,
                columns_match := columns_match,
                datacompy_report := "Error in comparison: " ++ msg,
                source_unmatched_rows := emptyDF, target_unmatched_rows := emptyDF,
                column_summary := summary, row_counts := rc, distinct_values := dv }
        | .ok merged =>
          let su := suOf merged
          let tu := tuOf merged
          let report := buildReport source.nRows target.nRows su.nRows tu.nRows
            e.join_columns dv
          .ok { match_status := columns_match && rows_match &&
                  (su.nRows == 0) && (tu.nRows == 0),
                rows_match := rows_match, columns_match := columns_match,
                datacompy_report := report,
                source_unmatched_rows := su, target_unmatched_rows := tu,
                column_summary := summary, row_counts := rc, distinct_values := dv }

/-- Whether an `Except` computation succeeded. -/
def exOk {α β : Type} : Except α β → Bool
  | .ok _ => true
  | .error _ => false

/-- Whether `compare()` returned the full results dict (not the three-key
failure dict). -/
def CompareOut.isFull : CompareOut → Bool
  | .ok _ => true
  | .failed _ _ => false

/-- The results dict of a successful `compare()` run (junk on failure);
used to state concrete facts about a run known to succeed. -/
def resOf (e : Engine) : Results :=
  match compare e with
  | .ok r => r
  | .failed _ _ => default

/-- The merged frame of a successful outer merge (junk on failure); used to
state concrete facts about a merge known to succeed. -/
def mergedOf (s t : DF) (jcols : List String) : DF :=
  match outerMerge s t jcols with
  | .ok m => m
  | .error _ => emptyDF

/-- Projection of a merged-output row back onto the target table's columns:
join cells are read from the left block by name, the remaining cells from
the right block by name.  Applied to a `right_only` row it recovers the
originating target row. -/
def projTgt (s t : DF) (jcols : List String) (mr : List Value) : List Value :=
  t.header.map (fun m =>
    if jcols.contains m.name then
      lookupVal s.header (mr.take s.header.length) m.name
    else
      lookupVal (t.header.filter (fun m2 => !(jcols.contains m2.name)))
        (mr.drop s.header.length) m.name)

/-- State-threaded `compare()`: the method body assigns no engine field, so
the post-state is the pre-state. -/
def compareS (e : Engine) : CompareOut × Engine := (compare e, e)

/-- State-threaded `get_distinct_values()`: likewise assigns no engine
field. -/
def getDistinctValuesS (e : Engine) (columns : Option (List String)) :
    List (String × DistinctInfo) × Engine := (getDistinctValues e columns, e)

/-- A one-column integer frame with one row; source and target of several
concrete runs. -/
def dfId : DF := { header := [⟨"id", DType.dtInt⟩], rows := [[Value.vint 1]] }

/-- Identical tables mapped onto themselves, with no join columns. -/
def eC1 : Engine :=
  setMapping (mkEngine dfId dfId)
    [{ source := "id", target := "id", join := false, data_type := "int64",
       exclude := false }] []

/-- A one-column integer frame named `a`. -/
def dfA : DF := { header := [⟨"a", DType.dtInt⟩], rows := [[Value.vint 1]] }

/-- A run whose detailed-comparison step fails: the join column `zzz` is
absent from both prepared tables, so `pd.merge` raises. -/
def eC2 : Engine :=
  setMapping (mkEngine dfA dfA)
    [{ source := "a", target := "a", join := false, data_type := "int64",
       exclude := false }] ["zzz"]

/-- An engine on which `set_mapping` was never called. -/
def eNoMap : Engine := mkEngine dfA dfA

/-- A string column holding `"a"` and a null. -/
def dfV2 : DF :=
  { header := [⟨"v", DType.dtObj⟩],
    rows := [[Value.vstr "a"], [Value.vnull]] }

/-- A string column holding only `"a"`. -/
def dfV1 : DF := { header := [⟨"v", DType.dtObj⟩], rows := [[Value.vstr "a"]] }

/-- A run whose source column has a null the target lacks, with identical
non-null values on both sides. -/
def eC4 : Engine :=
  setMapping (mkEngine dfV2 dfV1)
    [{ source := "v", target := "v", join := false, data_type := "object",
       exclude := false }] []

/-- A two-column integer frame. -/
def dfAB : DF :=
  { header := [⟨"a", DType.dtInt⟩, ⟨"b", DType.dtInt⟩],
    rows := [[Value.vint 1, Value.vint 2]] }

/-- A one-column integer frame named `c`. -/
def dfC : DF := { header := [⟨"c", DType.dtInt⟩], rows := [[Value.vint 3]] }

/-- A run with a duplicate-target mapping (permitted by the engine): both
source columns map to target column `c`, so the renamed target ends up with
two columns named `b` and no column `a`. -/
def eC5 : Engine :=
  setMapping (mkEngine dfAB dfC)
    [{ source := "a", target := "c", join := false, data_type := "int64",
       exclude := false },
     { source := "b", target := "c", join := false, data_type := "int64",
       exclude := false }] []

/-- A frame with a join column `id`, a shared column `v`, and a column
whose name `v_x` collides with the merge suffix of `v`. -/
def dfIVX : DF :=
  { header := [⟨"id", DType.dtInt⟩, ⟨"v", DType.dtObj⟩, ⟨"v_x", DType.dtObj⟩],
    rows := [[Value.vint 1, Value.vstr "s", Value.vstr "t"]] }

/-- A run excluding the column named `v_x` while the shared non-join column
`v` gets suffixed to `v_x`/`v_y` in the merge output. -/
def eC6 : Engine :=
  setMapping (mkEngine dfIVX dfIVX)
    [{ source := "id", target := "id", join := true, data_type := "int64",
       exclude := false },
     { source := "v", target := "v", join := false, data_type := "object",
       exclude := false },
     { source := "v_x", target := "v_x", join := false, data_type := "object",
       exclude := true }] ["id"]

/-- A source frame whose only column is named by the empty string. -/
def dfC7s : DF := { header := [⟨"", DType.dtObj⟩], rows := [] }

/-- A target frame with columns `-` and `""`: the empty name occurs
verbatim, but the alphanumeric-stripped rule matches `-` first. -/
def dfC7t : DF :=
  { header := [⟨"-", DType.dtObj⟩, ⟨"", DType.dtObj⟩], rows := [] }

/-- The engine of the `auto_map_columns` empty-name run. -/
def eC7 : Engine := mkEngine dfC7s dfC7t

/-- A target frame that does have a column named by the empty string. -/
def dfC9t : DF :=
  { header := [⟨"a", DType.dtInt⟩, ⟨"", DType.dtInt⟩],
    rows := [[Value.vint 1, Value.vint 2]] }

/-- A run whose mapping leaves `a` unmapped (empty target, not excluded)
while the target table happens to have a column named `""`. -/
def eC9 : Engine :=
  setMapping (mkEngine dfA dfC9t)
    [{ source := "a", target := "", join := false, data_type := "int64",
       exclude := false }] []

/-- A run whose mapping leaves `a` unmapped and whose target table has no
empty-named column. -/
def eC9w : Engine :=
  setMapping (mkEngine dfA dfA)
    [{ source := "a", target := "", join := false, data_type := "int64",
       exclude := false }] []

/-- Spec Scenario A source: `{id: [1,2,3], val: [10,20,30]}`. -/
def dfScAs : DF :=
  { header := [⟨"id", DType.dtInt⟩, ⟨"val", DType.dtInt⟩],
    rows := [[Value.vint 1, Value.vint 10], [Value.vint 2, Value.vint 20],
             [Value.vint 3, Value.vint 30]] }

/-- Spec Scenario A target: `{id: [1,2,4], val: [10,25,30]}`. -/
def dfScAt : DF :=
  { header := [⟨"id", DType.dtInt⟩, ⟨"val", DType.dtInt⟩],
    rows := [[Value.vint 1, Value.vint 10], [Value.vint 2, Value.vint 25],
             [Value.vint 4, Value.vint 30]] }

/-- The identity mapping of `id` (join) and `val`. -/
def idValMapping : List MapEntry :=
  [{ source := "id", target := "id", join := true, data_type := "int64",
     exclude := false },
   { source := "val", target := "val", join := false, data_type := "int64",
     exclude := false }]

/-- Spec Scenario A: join on `id`, one unmatched row on each side. -/
def eScA : Engine := setMapping (mkEngine dfScAs dfScAt) idValMapping ["id"]

/-- Spec Scenario B: identical tables joined on `id`. -/
def eScB : Engine := setMapping (mkEngine dfScAs dfScAs) idValMapping ["id"]

/-- A clean run with an excluded column `w` whose name collides with
nothing. -/
def dfIVW : DF :=
  { header := [⟨"id", DType.dtInt⟩, ⟨"v", DType.dtObj⟩, ⟨"w", DType.dtObj⟩],
    rows := [[Value.vint 1, Value.vstr "s", Value.vstr "u"]] }

/-- The engine of the clean excluded-column run. -/
def eC6w : Engine :=
  setMapping (mkEngine dfIVW dfIVW)
    [{ source := "id", target := "id", join := true, data_type := "int64",
       exclude := false },
     { source := "v", target := "v", join := false, data_type := "object",
       exclude := false },
     { source := "w", target := "w", join := false, data_type := "object",
       exclude := true }] ["id"]

/-! Branch characterizations of `compare`, used throughout the claims. -/

/-- A failing `_prepare_dataframes` makes `compare` return the three-key
failure dict. -/
theorem compare_prep_error (e : Engine) (msg : String)
    (hp : prepareDataframes e = .error msg) :
    compare e = .failed msg ("Comparison failed: " ++ msg) := by
  simp only [compare, hp]

/-- A failing `_generate_column_summary` (inside the results-dict
construction) makes `compare` return the three-key failure dict. -/
theorem compare_summary_error (e : Engine) (s t : DF) (msg : String)
    (hp : prepareDataframes e = .ok (s, t))
    (hsum : generateColumnSummary e.join_columns s t = .error msg) :
    compare e = .failed msg ("Comparison failed: " ++ msg) := by
  simp only [compare, hp, hsum]

/-- The empty-join-columns branch of `compare`. -/
theorem compare_nojoin (e : Engine) (s t : DF)
    (summary : List (String × ColSummary))
    (hp : prepareDataframes e = .ok (s, t))
    (hsum : generateColumnSummary e.join_columns s t = .ok summary)
    (hj : e.join_columns.isEmpty = true) :
    compare e = .ok
      { match_status := false, rows_match := s.nRows == t.nRows,
        columns_match := colSetEq s t, datacompy_report := "",
        source_unmatched_rows := emptyDF, target_unmatched_rows := emptyDF,
        column_summary := summary,
        row_counts := { source_name := "Source", target_name := "Target",
                        source_count := s.nRows, target_count := t.nRows },
        distinct_values := getDistinctValues e none } := by
  simp only [compare, hp, hsum, hj, if_true]

/-- The failing-merge branch of `compare`: the inner handler records the
error in `datacompy_report` and returns the otherwise-populated results. -/
theorem compare_merge_error (e : Engine) (s t : DF)
    (summary : List (String × ColSummary)) (msg : String)
    (hp : prepareDataframes e = .ok (s, t))
    (hsum : generateColumnSummary e.join_columns s t = .ok summary)
    (hj : e.join_columns.isEmpty = false)
    (hm : outerMerge s t e.join_columns = .error msg) :
    compare e = .ok
      { match_status := false, rows_match := s.nRows == t.nRows,
        columns_match := colSetEq s t,
        datacompy_report := "Error in comparison: " ++ msg,
        source_unmatched_rows := emptyDF, target_unmatched_rows := emptyDF,
        column_summary := summary,
        row_counts := { source_name := "Source", target_name := "Target",
                        source_count := s.nRows, target_count := t.nRows },
        distinct_values := getDistinctValues e none } := by
  simp only [compare, hp, hsum, hj, hm, Bool.false_eq_true, if_false]

/-- The successful-merge branch of `compare`. -/
theorem compare_merged (e : Engine) (s t : DF)
    (summary : List (String × ColSummary)) (merged : DF)
    (hp : prepareDataframes e = .ok (s, t))
    (hsum : generateColumnSummary e.join_columns s t = .ok summary)
    (hj : e.join_columns.isEmpty = false)
    (hm : outerMerge s t e.join_columns = .ok merged) :
    compare e = .ok
      { match_status := colSetEq s t && (s.nRows == t.nRows) &&
          ((suOf merged).nRows == 0) && ((tuOf merged).nRows == 0),
        rows_match := s.nRows == t.nRows,
        columns_match := colSetEq s t,
        datacompy_report := buildReport s.nRows t.nRows (suOf merged).nRows
          (tuOf merged).nRows e.join_columns (getDistinctValues e none),
        source_unmatched_rows := suOf merged, target_unmatched_rows := tuOf merged,
        column_summary := summary,
        row_counts := { source_name := "Source", target_name := "Target",
                        source_count := s.nRows, target_count := t.nRows },
        distinct_values := getDistinctValues e none } := by
  simp only [compare, hp, hsum, hj, hm, Bool.false_eq_true, if_false]

/-- A row-count comparison with zero is emptiness of the row list. -/
theorem nRows_beq_zero (df : DF) : (df.nRows == 0) = df.rows.isEmpty := by
  cases h : df.rows with
  | nil => simp [DF.nRows, h]
  | cons a l => simp [DF.nRows, h]

/-- C8.  Neither `compare()` nor `get_distinct_values()` writes any engine
field, so the engine-held source and target tables are unchanged by the
call: the state-threaded forms return the input state (the Python bodies
contain no assignment to `self`, and `_prepare_dataframes` copies before
selecting).  Hence the caller-supplied tables are left intact. -/
theorem claim_C8_frames_unchanged (e : Engine) :
    (compareS e).2.source_df = e.source_df ∧
    (compareS e).2.target_df = e.target_df ∧
    ∀ cols : Option (List String),
      (getDistinctValuesS e cols).2.source_df = e.source_df ∧
      (getDistinctValuesS e cols).2.target_df = e.target_df :=
  ⟨rfl, rfl, fun _ => ⟨rfl, rfl⟩⟩

/-- C7, counterexample.  The source column named `""` occurs verbatim among
the target columns, yet `auto_map_columns` maps it to `"-"`: the exact
match is the falsy string `""`, so `if not t_col` sends the loop on to the
alphanumeric-stripped rule, which matches `"-"` first. -/
theorem claim_C7_counterexample :
    (autoMapColumns eC7).map (·.source) = [""] ∧
    "" ∈ eC7.target_df.colNames ∧
    (autoMapColumns eC7).map (·.target) = ["-"] := by
  decide

/-- C7, amended.  For a source table with uniquely named columns (pandas
raises on duplicate names at `df[col].dtype`), `auto_map_columns` returns
one entry per source column in order, every entry has `join=false` and
`exclude=false`, a NON-empty source name occurring verbatim among the
target columns maps to itself, and a source column matched by no rule gets
an empty target. -/
theorem claim_C7_automap_amended (e : Engine)
    (hnd : e.source_df.colNames.Nodup) :
    (autoMapColumns e).map (·.source) = e.source_df.colNames ∧
    ∀ m ∈ autoMapColumns e,
      m.join = false ∧ m.exclude = false ∧
      (m.source ≠ "" → m.source ∈ e.target_df.colNames → m.target = m.source) ∧
      (m.source ∉ e.target_df.colNames →
        (∀ c ∈ e.target_df.colNames, strLower c ≠ strLower m.source) →
        (∀ c ∈ e.target_df.colNames, strClean c ≠ strClean m.source) →
        m.target = "") := by
  constructor
  · simp only [autoMapColumns, List.map_map]
    have h : ∀ c ∈ e.source_df.colNames,
        ((fun x => x.source) ∘
          fun c => autoMapOne e.target_df.colNames (e.source_df.colDtype c) c) c = c :=
      fun c _ => rfl
    rw [List.map_congr_left h]
    simp
  · intro m hm
    simp only [autoMapColumns, List.mem_map] at hm
    obtain ⟨c, hc, rfl⟩ := hm
    refine ⟨rfl, rfl, ?_, ?_⟩
    · intro hne hmem
      have hne2 : c ≠ "" := hne
      have hmem2 : c ∈ e.target_df.colNames := hmem
      show (autoMapOne e.target_df.colNames (e.source_df.colDtype c) c).target = c
      simp [autoMapOne, pyTruthy, hmem2, hne2]
    · intro hnm hci hcl
      have hci2 : ∀ x ∈ e.target_df.colNames, strLower x ≠ strLower c := hci
      have hcl2 : ∀ x ∈ e.target_df.colNames, strClean x ≠ strClean c := hcl
      have hnm2 : c ∉ e.target_df.colNames := hnm
      have h2 : e.target_df.colNames.find? (fun x => strLower x == strLower c) = none := by
        apply List.find?_eq_none.mpr
        intro x hx
        simpa using hci2 x hx
      have h3 : e.target_df.colNames.find? (fun x => strClean x == strClean c) = none := by
        apply List.find?_eq_none.mpr
        intro x hx
        simpa using hcl2 x hx
      show (autoMapOne e.target_df.colNames (e.source_df.colDtype c) c).target = ""
      simp [autoMapOne, h2, h3, pyTruthy, hnm2]

/-- C7, witness: the amended theorem applied to Scenario A's engine, whose
source columns are distinct. -/
theorem claim_C7_witness :
    eScA.source_df.colNames.Nodup ∧
    ((autoMapColumns eScA).map (·.source) = eScA.source_df.colNames ∧
     ∀ m ∈ autoMapColumns eScA,
       m.join = false ∧ m.exclude = false ∧
       (m.source ≠ "" → m.source ∈ eScA.target_df.colNames → m.target = m.source) ∧
       (m.source ∉ eScA.target_df.colNames →
         (∀ c ∈ eScA.target_df.colNames, strLower c ≠ strLower m.source) →
         (∀ c ∈ eScA.target_df.colNames, strClean c ≠ strClean m.source) →
         m.target = "")) :=
  ⟨by decide, claim_C7_automap_amended eScA (by decide)⟩

/-- C1, counterexample.  On identical tables compared with empty
`join_columns`, `columns_match` and `rows_match` hold and both
unmatched-row tables are empty, yet `match_status` is `false`: the
assignment at lines 169-174 only runs inside the `if self.join_columns`
block, so the claimed equality fails on runs with empty `join_columns`. -/
theorem claim_C1_counterexample :
    (compare eC1).matchStatus = false ∧ (compare eC1).conjStatus = true := by
  decide

/-- C1, amended.  `match_status` equals the conjunction of `columns_match`,
`rows_match` and emptiness of both unmatched-row tables ONLY on runs where
`join_columns` is non-empty and the detailed-comparison step succeeds; on
runs with empty `join_columns`, or where the merge step raises,
`match_status` is `false` regardless of the conjunction. -/
theorem claim_C1_match_status_amended (e : Engine) (s t : DF) (r : Results)
    (hp : prepareDataframes e = .ok (s, t))
    (hr : compare e = .ok r) :
    r.match_status =
      (!e.join_columns.isEmpty && exOk (outerMerge s t e.join_columns) &&
       (r.columns_match && r.rows_match &&
        r.source_unmatched_rows.rows.isEmpty &&
        r.target_unmatched_rows.rows.isEmpty)) := by
  cases hsum : generateColumnSummary e.join_columns s t with
  | error msg =>
    rw [compare_summary_error e s t msg hp hsum] at hr
    exact absurd hr (by simp)
  | ok summary =>
    cases hj : e.join_columns.isEmpty with
    | true =>
      rw [compare_nojoin e s t summary hp hsum hj] at hr
      cases hr
      simp [hj, emptyDF]
    | false =>
      cases hm : outerMerge s t e.join_columns with
      | error msg =>
        rw [compare_merge_error e s t summary msg hp hsum hj hm] at hr
        cases hr
        simp [hj, hm, exOk]
      | ok merged =>
        rw [compare_merged e s t summary merged hp hsum hj hm] at hr
        cases hr
        simp [hj, hm, exOk, nRows_beq_zero, Bool.and_assoc]

/-- C1, witness: the amended theorem applied to spec Scenario B (identical
tables joined on `id`), where both sides of the equation are `true`. -/
theorem claim_C1_witness :
    prepareDataframes eScB = .ok (dfScAs, dfScAs) ∧
    compare eScB = .ok (resOf eScB) ∧
    (resOf eScB).match_status =
      (!eScB.join_columns.isEmpty && exOk (outerMerge dfScAs dfScAs eScB.join_columns) &&
       ((resOf eScB).columns_match && (resOf eScB).rows_match &&
        (resOf eScB).source_unmatched_rows.rows.isEmpty &&
        (resOf eScB).target_unmatched_rows.rows.isEmpty)) :=
  ⟨rfl, rfl,
    claim_C1_match_status_amended eScB dfScAs dfScAs (resOf eScB) rfl rfl⟩

/-- C9, counterexample.  The claim asserts preparation fails for every
mapping with a non-excluded, empty-target entry; but when the target table
happens to have a column named by the empty string, `target[['']]` selects
it and preparation succeeds (the rename dict skips falsy targets, so the
column keeps its empty name). -/
theorem claim_C9_counterexample :
    (∃ m ∈ eC9.mapping, m.exclude = false ∧ m.target = "") ∧
    prepareDataframes eC9 =
      .ok ({ header := [⟨"a", DType.dtInt⟩], rows := [[Value.vint 1]] },
           { header := [⟨"", DType.dtInt⟩], rows := [[Value.vint 2]] }) :=
  ⟨by decide, rfl⟩

/-- C9, amended.  For every mapping with at least one non-excluded,
empty-target entry, PROVIDED the target table has no column named by the
empty string, table preparation fails (with a `KeyError` from selecting
the empty-string column, or earlier from a missing source column), so
`compare()` returns the failure-shaped result. -/
theorem claim_C9_unmapped_amended (e : Engine)
    (h1 : ∃ m ∈ e.mapping, m.exclude = false ∧ m.target = "")
    (h2 : "" ∉ e.target_df.colNames) :
    ∃ msg, prepareDataframes e = .error msg ∧
      compare e = .failed msg ("Comparison failed: " ++ msg) := by
  obtain ⟨m, hm, hx, ht⟩ := h1
  have hne : e.mapping.isEmpty = false := by
    cases hmap : e.mapping with
    | nil => rw [hmap] at hm; exact absurd hm (by simp)
    | cons a l => simp
  have hprep : ∃ msg, prepareDataframes e = .error msg := by
    unfold prepareDataframes
    rw [hne]
    simp only [Bool.false_eq_true, if_false]
    cases hs : selectCols e.source_df
        ((e.mapping.filter (fun m => !m.exclude)).map (·.source)) with
    | error msg => exact ⟨msg, rfl⟩
    | ok source =>
      have hmk : m ∈ e.mapping.filter (fun m => !m.exclude) := by
        rw [List.mem_filter]
        exact ⟨hm, by simp [hx]⟩
      have hmem : "" ∈ (e.mapping.filter (fun m => !m.exclude)).map (·.target) := by
        rw [List.mem_map]
        exact ⟨m, hmk, ht⟩
      have hall : ((e.mapping.filter (fun m => !m.exclude)).map (·.target)).all
          (fun n => e.target_df.colNames.contains n) = false := by
        cases hq : ((e.mapping.filter (fun m => !m.exclude)).map (·.target)).all
            (fun n => e.target_df.colNames.contains n) with
        | false => rfl
        | true =>
          rw [List.all_eq_true] at hq
          have := hq "" hmem
          simp at this
          exact absurd this h2
      unfold selectCols
      rw [hall]
      simp only [Bool.false_eq_true, if_false]
      exact ⟨_, rfl⟩
  obtain ⟨msg, hmsg⟩ := hprep
  exact ⟨msg, hmsg, compare_prep_error e msg hmsg⟩

/-- C9, witness: the amended theorem applied to a run with a single
unmapped column `a` and a target table with columns `[a]`. -/
theorem claim_C9_witness :
    (∃ m ∈ eC9w.mapping, m.exclude = false ∧ m.target = "") ∧
    "" ∉ eC9w.target_df.colNames ∧
    (∃ msg, prepareDataframes eC9w = .error msg ∧
      compare eC9w = .failed msg ("Comparison failed: " ++ msg)) :=
  ⟨by decide, by decide,
    claim_C9_unmapped_amended eC9w (by decide) (by decide)⟩

/-- When every iterated column is present in the prepared target,
`_generate_column_summary`'s loop succeeds with one entry per column. -/
theorem buildSummary_ok (s t : DF) (cs : List String)
    (h : ∀ c ∈ cs, t.colNames.contains c = true) :
    buildSummary s t cs = .ok (cs.map (fun c => (c, mkColSummary s t c))) := by
  induction cs with
  | nil => rfl
  | cons c cs ih =>
    have hc := h c (by simp)
    have hrest : ∀ x ∈ cs, t.colNames.contains x = true :=
      fun x hx => h x (by simp [hx])
    simp only [buildSummary, hc, if_true, ih hrest, List.map]

/-- `_generate_column_summary` succeeds when its iterated columns are all
present in the prepared target table. -/
theorem generateColumnSummary_ok (jc : List String) (s t : DF)
    (h : ∀ c ∈ summaryCols jc s, t.colNames.contains c = true) :
    generateColumnSummary jc s t = .ok (columnSummarySpec jc s t) :=
  buildSummary_ok s t (summaryCols jc s) h

/-- C2, counterexample.  An internal step of `compare()` fails (the merge
raises `KeyError` because the join column `zzz` is absent from the
prepared tables), yet the returned result is NOT the three-key failure
shape: it is the full results dict — no `error` entry, `column_summary`
and `row_counts` populated (partial tables present). -/
theorem claim_C2_counterexample :
    prepareDataframes eC2 = .ok (dfA, dfA) ∧
    outerMerge dfA dfA eC2.join_columns = .error "KeyError: zzz" ∧
    compare eC2 = .ok (resOf eC2) ∧
    (resOf eC2).datacompy_report = "Error in comparison: KeyError: zzz" ∧
    (resOf eC2).match_status = false ∧
    (resOf eC2).column_summary ≠ [] ∧
    (resOf eC2).row_counts.source_count = 1 :=
  ⟨rfl, rfl, rfl, rfl, rfl, by decide, rfl⟩

/-- C2, amended.  `compare()` never raises (the embedding is a total
function); a failure of table preparation or of the column-summary step
yields the bare failure result carrying `match_status=false`, the error
string, and a `datacompy_report` describing the failure, with no tables;
but a failure inside the detailed-comparison step instead yields a
normal-shaped result with `match_status=false` and the error text in
`datacompy_report`, retaining the already-computed summary, counts and
distinct values, and with no `error` entry. -/
theorem claim_C2_boundary_amended (e : Engine) :
    (∀ msg, prepareDataframes e = .error msg →
      compare e = .failed msg ("Comparison failed: " ++ msg)) ∧
    (∀ s t msg, prepareDataframes e = .ok (s, t) →
      generateColumnSummary e.join_columns s t = .error msg →
      compare e = .failed msg ("Comparison failed: " ++ msg)) ∧
    (∀ s t summary msg, prepareDataframes e = .ok (s, t) →
      generateColumnSummary e.join_columns s t = .ok summary →
      e.join_columns.isEmpty = false →
      outerMerge s t e.join_columns = .error msg →
      compare e = .ok
        { match_status := false, rows_match := s.nRows == t.nRows,
          columns_match := colSetEq s t,
          datacompy_report := "Error in comparison: " ++ msg,
          source_unmatched_rows := emptyDF, target_unmatched_rows := emptyDF,
          column_summary := summary,
          row_counts := { source_name := "Source", target_name := "Target",
                          source_count := s.nRows, target_count := t.nRows },
          distinct_values := getDistinctValues e none }) :=
  ⟨fun msg h => compare_prep_error e msg h,
   fun s t msg hp hs => compare_summary_error e s t msg hp hs,
   fun s t summary msg hp hs hj hm => compare_merge_error e s t summary msg hp hs hj hm⟩

/-- C2, witness: on an engine with no mapping set, preparation fails and
`compare` returns the failure shape, by the amended theorem. -/
theorem claim_C2_witness :
    prepareDataframes eNoMap = .error "Mapping must be set before comparison" ∧
    compare eNoMap = .failed "Mapping must be set before comparison"
      "Comparison failed: Mapping must be set before comparison" :=
  ⟨rfl, (claim_C2_boundary_amended eNoMap).1 _ rfl⟩

/-- C5, counterexample.  A run with empty `join_columns` whose preparation
succeeds but whose duplicate-target mapping leaves the prepared target
without a column `a`: `_generate_column_summary` raises `KeyError` on
`target['a']` and `compare()` returns the failure shape instead of the
claimed populated result with an empty report. -/
theorem claim_C5_counterexample :
    prepareDataframes eC5 =
      .ok ({ header := [⟨"a", DType.dtInt⟩, ⟨"b", DType.dtInt⟩],
             rows := [[Value.vint 1, Value.vint 2]] },
           { header := [⟨"b", DType.dtInt⟩, ⟨"b", DType.dtInt⟩],
             rows := [[Value.vint 3, Value.vint 3]] }) ∧
    eC5.join_columns = [] ∧
    compare eC5 = .failed "KeyError: a" "Comparison failed: KeyError: a" :=
  ⟨rfl, rfl, rfl⟩

/-- C5, amended.  When `join_columns` is empty, table preparation succeeds,
AND every prepared source column also occurs among the prepared target
columns (so the summary loop cannot raise), `compare()` returns the full
result with an empty `datacompy_report`, `match_status=false`, both
unmatched-row tables empty, and `column_summary` and `row_counts`
populated from the prepared tables. -/
theorem claim_C5_nojoin_amended (e : Engine) (s t : DF)
    (hp : prepareDataframes e = .ok (s, t))
    (hj : e.join_columns = [])
    (hc : ∀ c ∈ s.colNames, c ∈ t.colNames) :
    compare e = .ok
      { match_status := false, rows_match := s.nRows == t.nRows,
        columns_match := colSetEq s t, datacompy_report := "",
        source_unmatched_rows := emptyDF, target_unmatched_rows := emptyDF,
        column_summary := columnSummarySpec e.join_columns s t,
        row_counts := { source_name := "Source", target_name := "Target",
                        source_count := s.nRows, target_count := t.nRows },
        distinct_values := getDistinctValues e none } := by
  have hsum : generateColumnSummary e.join_columns s t =
      .ok (columnSummarySpec e.join_columns s t) := by
    apply generateColumnSummary_ok
    intro c hcmem
    have hcs : c ∈ s.colNames := by
      simp only [summaryCols, List.mem_filter] at hcmem
      exact hcmem.1
    simpa using hc c hcs
  exact compare_nojoin e s t _ hp hsum (by rw [hj]; rfl)

/-- C5, witness: the amended theorem applied to identical one-column tables
with no join columns. -/
theorem claim_C5_witness :
    prepareDataframes eC1 = .ok (dfId, dfId) ∧
    eC1.join_columns = [] ∧
    compare eC1 = .ok
      { match_status := false, rows_match := dfId.nRows == dfId.nRows,
        columns_match := colSetEq dfId dfId, datacompy_report := "",
        source_unmatched_rows := emptyDF, target_unmatched_rows := emptyDF,
        column_summary := columnSummarySpec eC1.join_columns dfId dfId,
        row_counts := { source_name := "Source", target_name := "Target",
                        source_count := dfId.nRows, target_count := dfId.nRows },
        distinct_values := getDistinctValues eC1 none } :=
  ⟨rfl, rfl, claim_C5_nojoin_amended eC1 dfId dfId rfl rfl (fun c hc => hc)⟩

/-- The histogram keys of `value_counts().to_dict()` are exactly the
distinct non-null values of the column. -/
theorem valueCounts_keys (vals : List Value) :
    (valueCounts vals).map (·.1) =
      (vals.filter (fun v => !(v == Value.vnull))).dedup := by
  unfold valueCounts
  rw [List.map_map]
  have h : ∀ x ∈ (vals.filter (fun v => !(v == Value.vnull))).dedup,
      ((fun x => x.1) ∘ fun v => (v, vals.count v)) x = x := fun x _ => rfl
  rw [List.map_congr_left h]
  simp

/-- Boolean membership test agrees with membership. -/
theorem contains_true_iff (l : List Value) (v : Value) :
    l.contains v = true ↔ v ∈ l := by
  simp

/-- A value is a histogram key iff it occurs in the column and is not
null. -/
theorem mem_valueCounts_keys (vals : List Value) (v : Value) :
    v ∈ (valueCounts vals).map (·.1) ↔ v ∈ vals ∧ v ≠ Value.vnull := by
  rw [valueCounts_keys, List.mem_dedup, List.mem_filter]
  simp

/-- The `matching` flag of a distinct-value entry holds iff the source and
target columns have the same set of distinct NON-NULL values. -/
theorem mkDistinctInfo_matching (s t : DF) (c : String) :
    (mkDistinctInfo s t c).matching = true ↔
      ∀ v : Value, v ≠ Value.vnull →
        (v ∈ s.colValues c ↔ v ∈ t.colValues c) := by
  have hm : (mkDistinctInfo s t c).matching =
      (((valueCounts (s.colValues c)).map (·.1)).all
        (fun v => ((valueCounts (t.colValues c)).map (·.1)).contains v) &&
       ((valueCounts (t.colValues c)).map (·.1)).all
        (fun v => ((valueCounts (s.colValues c)).map (·.1)).contains v)) := rfl
  rw [hm, Bool.and_eq_true, List.all_eq_true, List.all_eq_true]
  constructor
  · intro ⟨h1, h2⟩ v hv
    constructor
    · intro hvs
      have h3 := (contains_true_iff _ v).mp (h1 v ((mem_valueCounts_keys _ v).mpr ⟨hvs, hv⟩))
      exact ((mem_valueCounts_keys _ v).mp h3).1
    · intro hvt
      have h3 := (contains_true_iff _ v).mp (h2 v ((mem_valueCounts_keys _ v).mpr ⟨hvt, hv⟩))
      exact ((mem_valueCounts_keys _ v).mp h3).1
  · intro h
    constructor
    · intro v hv
      obtain ⟨hvs, hvn⟩ := (mem_valueCounts_keys _ v).mp hv
      exact (contains_true_iff _ v).mpr
        ((mem_valueCounts_keys _ v).mpr ⟨(h v hvn).mp hvs, hvn⟩)
    · intro v hv
      obtain ⟨hvt, hvn⟩ := (mem_valueCounts_keys _ v).mp hv
      exact (contains_true_iff _ v).mpr
        ((mem_valueCounts_keys _ v).mpr ⟨(h v hvn).mpr hvt, hvn⟩)

/-- Every entry of `get_distinct_values` comes from a column present in
both prepared tables and carries that column's `DistinctInfo`. -/
theorem getDistinctValues_mem (e : Engine) (cols : Option (List String))
    (s t : DF) (c : String) (info : DistinctInfo)
    (hp : prepareDataframes e = .ok (s, t))
    (hmem : (c, info) ∈ getDistinctValues e cols) :
    c ∈ s.colNames ∧ c ∈ t.colNames ∧ info = mkDistinctInfo s t c := by
  unfold getDistinctValues at hmem
  rw [hp] at hmem
  simp only [List.mem_filterMap] at hmem
  obtain ⟨a, ha, hf⟩ := hmem
  cases hg : (s.colNames.contains a && t.colNames.contains a) with
  | false => rw [hg] at hf; exact absurd hf (by simp)
  | true =>
    rw [hg] at hf
    simp only [if_true] at hf
    injection hf with hpair
    injection hpair with h1 h2
    subst h1
    rw [Bool.and_eq_true] at hg
    refine ⟨by simpa using hg.1, by simpa using hg.2, h2.symm⟩

/-- C4, counterexample.  With source column values `["a", null]` and target
column values `["a"]`, the sets of distinct values occurring in the two
prepared columns differ (null occurs only in the source), yet `matching`
is `true`: `value_counts()` drops nulls, so the compared key sets are both
`{"a"}`. -/
theorem claim_C4_counterexample :
    prepareDataframes eC4 = .ok (dfV2, dfV1) ∧
    getDistinctValues eC4 none = [("v", mkDistinctInfo dfV2 dfV1 "v")] ∧
    (mkDistinctInfo dfV2 dfV1 "v").matching = true ∧
    Value.vnull ∈ dfV2.colValues "v" ∧
    Value.vnull ∉ dfV1.colValues "v" :=
  ⟨rfl, rfl, rfl, by decide, by decide⟩

/-- C4, amended.  For every column included in the distinct-value
analysis, `matching` is true iff the set of distinct NON-NULL values of
that column agrees between the prepared source and target (exact-value set
equality, no numeric tolerance; nulls are ignored because `value_counts`
drops them). -/
theorem claim_C4_matching_amended (e : Engine) (cols : Option (List String))
    (s t : DF) (c : String) (info : DistinctInfo)
    (hp : prepareDataframes e = .ok (s, t))
    (hmem : (c, info) ∈ getDistinctValues e cols) :
    info.matching = true ↔
      ∀ v : Value, v ≠ Value.vnull →
        (v ∈ s.colValues c ↔ v ∈ t.colValues c) := by
  obtain ⟨_, _, rfl⟩ := getDistinctValues_mem e cols s t c info hp hmem
  exact mkDistinctInfo_matching s t c

/-- C4, witness: the amended theorem applied to the null-asymmetric run. -/
theorem claim_C4_witness :
    prepareDataframes eC4 = .ok (dfV2, dfV1) ∧
    ("v", mkDistinctInfo dfV2 dfV1 "v") ∈ getDistinctValues eC4 none ∧
    ((mkDistinctInfo dfV2 dfV1 "v").matching = true ↔
      ∀ v : Value, v ≠ Value.vnull →
        (v ∈ dfV2.colValues "v" ↔ v ∈ dfV1.colValues "v")) :=
  ⟨rfl, by decide,
    claim_C4_matching_amended eC4 none dfV2 dfV1 "v" _ rfl (by decide)⟩

/-! Infrastructure for the outer-merge lemmas (claims C3, C6, C10). -/

/-- String concatenation acts on the underlying character lists. -/
theorem strAppendData (a b : String) : (a ++ b).data = a.data ++ b.data := by
  cases a
  cases b
  rfl

/-- A two-character suffix other than `ge` can never turn a string into
`"_merge"`. -/
theorem append_suffix_ne_merge (c suf : String) (h2 : suf.data.length = 2)
    (hne : suf.data ≠ ['g', 'e']) : c ++ suf ≠ "_merge" := by
  intro h
  have hd : c.data ++ suf.data = "_merge".data := by
    rw [← strAppendData, h]
  have hlen : c.data.length = 4 := by
    have hl := congrArg List.length hd
    rw [List.length_append, h2] at hl
    have : ("_merge".data).length = 6 := by decide
    omega
  have hdrop := congrArg (List.drop c.data.length) hd
  rw [List.drop_left] at hdrop
  rw [hlen] at hdrop
  have hval : ("_merge".data).drop 4 = ['g', 'e'] := by decide
  exact hne (hdrop.trans hval)

/-- The `_x` merge-suffix never produces the indicator name. -/
theorem x_suffix_ne_merge (c : String) : c ++ "_x" ≠ "_merge" :=
  append_suffix_ne_merge c "_x" (by decide) (by decide)

/-- The `_y` merge-suffix never produces the indicator name. -/
theorem y_suffix_ne_merge (c : String) : c ++ "_y" ≠ "_merge" :=
  append_suffix_ne_merge c "_y" (by decide) (by decide)

/-- When neither input frame has a column named `_merge`, neither does the
merged header (the suffixes cannot create one). -/
theorem mergedHeader_no_merge (s t : DF) (jc : List String)
    (hms : "_merge" ∉ s.colNames) (hmt : "_merge" ∉ t.colNames) :
    ∀ m ∈ mergedHeader s t jc, ¬ m.name = "_merge" := by
  intro m hm
  rw [mergedHeader, List.mem_append] at hm
  cases hm with
  | inl hl =>
    rw [List.mem_map] at hl
    obtain ⟨m1, hm1, rfl⟩ := hl
    have hname : m1.name ∈ s.colNames := List.mem_map_of_mem (·.name) hm1
    by_cases hj : jc.contains m1.name
    · simp only [hj, if_true]
      intro hc; rw [hc] at hname; exact hms hname
    · simp only [hj, Bool.false_eq_true, if_false]
      by_cases hsh : t.colNames.contains m1.name
      · simp only [hsh, if_true]
        exact x_suffix_ne_merge m1.name
      · simp only [hsh, Bool.false_eq_true, if_false]
        intro hc; rw [hc] at hname; exact hms hname
  | inr hr =>
    rw [List.mem_map] at hr
    obtain ⟨m2, hm2, rfl⟩ := hr
    have hm2t : m2 ∈ t.header := List.mem_of_mem_filter hm2
    have hname : m2.name ∈ t.colNames := List.mem_map_of_mem (·.name) hm2t
    by_cases hsh : s.colNames.contains m2.name
    · simp only [hsh, if_true]
      exact y_suffix_ne_merge m2.name
    · simp only [hsh, Bool.false_eq_true, if_false]
      intro hc; rw [hc] at hname; exact hmt hname

/-- Length of a merged-output row body. -/
theorem mRow_length (s t : DF) (jc : List String) (sr tr : Option (List Value)) :
    (mRow s t jc sr tr).length =
      s.header.length +
        (t.header.filter (fun m => !(jc.contains m.name))).length := by
  cases sr <;> cases tr <;> simp [mRow]

/-- Length of the merged header body. -/
theorem mergedHeader_length (s t : DF) (jc : List String) :
    (mergedHeader s t jc).length =
      s.header.length +
        (t.header.filter (fun m => !(jc.contains m.name))).length := by
  simp [mergedHeader]

/-- Reading the trailing indicator cell of a merged row by name. -/
theorem lookupVal_append_merge (h1 : List ColMeta) (b : List Value)
    (mm : ColMeta) (v : Value)
    (hn : ∀ m ∈ h1, ¬ m.name = "_merge") (hmm : mm.name = "_merge")
    (hlen : b.length = h1.length) :
    lookupVal (h1 ++ [mm]) (b ++ [v]) "_merge" = v := by
  induction h1 generalizing b with
  | nil =>
    have : b = [] := List.length_eq_zero.mp hlen
    subst this
    simp [lookupVal, hmm]
  | cons m ms ih =>
    cases b with
    | nil => exact absurd hlen (by simp)
    | cons w bs =>
      have hm := hn m (by simp)
      have hms2 : ∀ x ∈ ms, ¬ x.name = "_merge" := fun x hx => hn x (by simp [hx])
      have hlen2 : bs.length = ms.length := by simpa using hlen
      show lookupVal ((m :: ms) ++ [mm]) ((w :: bs) ++ [v]) "_merge" = v
      rw [List.cons_append, List.cons_append]
      show (if m.name == "_merge" then w else lookupVal (ms ++ [mm]) (bs ++ [v]) "_merge") = v
      rw [if_neg (by simpa using hm)]
      exact ih bs hms2 hlen2

/-- Dropping the indicator column from a merged row recovers the body. -/
theorem dropColVals_append_merge (h1 : List ColMeta) (b : List Value)
    (mm : ColMeta) (v : Value)
    (hn : ∀ m ∈ h1, ¬ m.name = "_merge") (hmm : mm.name = "_merge")
    (hlen : b.length = h1.length) :
    dropColVals (h1 ++ [mm]) (b ++ [v]) "_merge" = b := by
  induction h1 generalizing b with
  | nil =>
    have : b = [] := List.length_eq_zero.mp hlen
    subst this
    simp [dropColVals, hmm]
  | cons m ms ih =>
    cases b with
    | nil => exact absurd hlen (by simp)
    | cons w bs =>
      have hm := hn m (by simp)
      have hms2 : ∀ x ∈ ms, ¬ x.name = "_merge" := fun x hx => hn x (by simp [hx])
      have hlen2 : bs.length = ms.length := by simpa using hlen
      show dropColVals ((m :: ms) ++ [mm]) ((w :: bs) ++ [v]) "_merge" = w :: bs
      rw [List.cons_append, List.cons_append]
      show (if m.name == "_merge" then dropColVals (ms ++ [mm]) (bs ++ [v]) "_merge"
            else w :: dropColVals (ms ++ [mm]) (bs ++ [v]) "_merge") = w :: bs
      rw [if_neg (by simpa using hm), ih bs hms2 hlen2]

/-- A successful merge fixes the merged frame's structure. -/
theorem outerMerge_ok_struct (s t : DF) (jc : List String) (merged : DF)
    (hm : outerMerge s t jc = .ok merged) :
    merged =
      { header := mergedHeader s t jc ++ [{ name := "_merge", dtype := DType.dtObj }],
        rows := mergeLeftRows s t jc s.rows ++ mergeRightOnlyRows s t jc } := by
  unfold outerMerge at hm
  by_cases hg : jc.all (fun c => s.colNames.contains c && t.colNames.contains c)
  · rw [if_pos hg] at hm
    exact (Except.ok.inj hm).symm
  · rw [if_neg hg] at hm
    exact absurd hm (by simp)

/-- A successful merge requires every join column on both sides. -/
theorem outerMerge_ok_keys (s t : DF) (jc : List String) (merged : DF)
    (hm : outerMerge s t jc = .ok merged) :
    ∀ c ∈ jc, c ∈ s.colNames ∧ c ∈ t.colNames := by
  unfold outerMerge at hm
  by_cases hg : jc.all (fun c => s.colNames.contains c && t.colNames.contains c)
  · intro c hc
    rw [List.all_eq_true] at hg
    have := hg c hc
    rw [Bool.and_eq_true] at this
    exact ⟨by simpa using this.1, by simpa using this.2⟩
  · rw [if_neg hg] at hm
    exact absurd hm (by simp)

/-- Reading the indicator of a tagged merged row gives its tag. -/
theorem lookup_tag (s t : DF) (jc : List String)
    (hms : "_merge" ∉ s.colNames) (hmt : "_merge" ∉ t.colNames)
    (sr tr : Option (List Value)) (tag : Value) :
    lookupVal (mergedHeader s t jc ++ [{ name := "_merge", dtype := DType.dtObj }])
      (mRow s t jc sr tr ++ [tag]) "_merge" = tag :=
  lookupVal_append_merge _ _ _ _ (mergedHeader_no_merge s t jc hms hmt) rfl
    ((mRow_length s t jc sr tr).trans (mergedHeader_length s t jc).symm)

/-- Filtering the left-driven merged rows by the `left_only` tag keeps
exactly one row per unmatched source row, in order. -/
theorem filter_mergeLeftRows_leftonly (s t : DF) (jc : List String)
    (hms : "_merge" ∉ s.colNames) (hmt : "_merge" ∉ t.colNames)
    (rows : List (List Value)) :
    (mergeLeftRows s t jc rows).filter (fun mr =>
        lookupVal (mergedHeader s t jc ++ [{ name := "_merge", dtype := DType.dtObj }])
          mr "_merge" == Value.vstr "left_only") =
      (rows.filter (fun r =>
        (t.rows.filter (fun tr => keyOf t jc tr == keyOf s jc r)).isEmpty)).map
        (fun r => mRow s t jc (some r) none ++ [Value.vstr "left_only"]) := by
  induction rows with
  | nil => simp [mergeLeftRows]
  | cons r rs ih =>
    rw [mergeLeftRows, List.filter_append, ih]
    by_cases hempty : (t.rows.filter (fun tr => keyOf t jc tr == keyOf s jc r)).isEmpty
    · rw [if_pos hempty]
      have htag := lookup_tag s t jc hms hmt (some r) none (Value.vstr "left_only")
      rw [List.filter_cons]
      simp only [htag, List.filter_nil, beq_self_eq_true, if_true]
      rw [List.filter_cons, if_pos hempty]
      simp
    · rw [if_neg hempty]
      have hnil : ((t.rows.filter (fun tr => keyOf t jc tr == keyOf s jc r)).map
          (fun tr => mRow s t jc (some r) (some tr) ++ [Value.vstr "both"])).filter
          (fun mr =>
            lookupVal (mergedHeader s t jc ++ [{ name := "_merge", dtype := DType.dtObj }])
              mr "_merge" == Value.vstr "left_only") = [] := by
        apply List.filter_eq_nil.mpr
        intro mr hmr
        rw [List.mem_map] at hmr
        obtain ⟨tr, _, rfl⟩ := hmr
        rw [lookup_tag s t jc hms hmt (some r) (some tr) (Value.vstr "both")]
        simp
      rw [hnil]
      rw [List.filter_cons]
      simp only [Bool.false_eq_true, if_neg hempty]
      simp [hempty]

/-- Filtering the left-driven merged rows by the `right_only` tag keeps
nothing. -/
theorem filter_mergeLeftRows_rightonly (s t : DF) (jc : List String)
    (hms : "_merge" ∉ s.colNames) (hmt : "_merge" ∉ t.colNames)
    (rows : List (List Value)) :
    (mergeLeftRows s t jc rows).filter (fun mr =>
        lookupVal (mergedHeader s t jc ++ [{ name := "_merge", dtype := DType.dtObj }])
          mr "_merge" == Value.vstr "right_only") = [] := by
  induction rows with
  | nil => simp [mergeLeftRows]
  | cons r rs ih =>
    rw [mergeLeftRows, List.filter_append, ih, List.append_nil]
    apply List.filter_eq_nil.mpr
    intro mr hmr
    by_cases hempty : (t.rows.filter (fun tr => keyOf t jc tr == keyOf s jc r)).isEmpty
    · rw [if_pos hempty] at hmr
      rw [List.mem_singleton] at hmr
      subst hmr
      rw [lookup_tag s t jc hms hmt (some r) none (Value.vstr "left_only")]
      simp
    · rw [if_neg hempty] at hmr
      rw [List.mem_map] at hmr
      obtain ⟨tr, _, rfl⟩ := hmr
      rw [lookup_tag s t jc hms hmt (some r) (some tr) (Value.vstr "both")]
      simp

/-- The `right_only` block contributes nothing to a `left_only` or `both`
filter and everything to a `right_only` filter. -/
theorem filter_mergeRightOnlyRows (s t : DF) (jc : List String)
    (hms : "_merge" ∉ s.colNames) (hmt : "_merge" ∉ t.colNames) (tag : String) :
    (mergeRightOnlyRows s t jc).filter (fun mr =>
        lookupVal (mergedHeader s t jc ++ [{ name := "_merge", dtype := DType.dtObj }])
          mr "_merge" == Value.vstr tag) =
      if tag = "right_only" then mergeRightOnlyRows s t jc else [] := by
  by_cases h : tag = "right_only"
  · subst h
    rw [if_pos rfl]
    apply List.filter_eq_self.mpr
    intro mr hmr
    rw [mergeRightOnlyRows, List.mem_map] at hmr
    obtain ⟨tr, _, rfl⟩ := hmr
    rw [lookup_tag s t jc hms hmt none (some tr) (Value.vstr "right_only")]
    simp
  · rw [if_neg h]
    apply List.filter_eq_nil.mpr
    intro mr hmr
    rw [mergeRightOnlyRows, List.mem_map] at hmr
    obtain ⟨tr, _, rfl⟩ := hmr
    rw [lookup_tag s t jc hms hmt none (some tr) (Value.vstr "right_only")]
    simp only [beq_iff_eq, Value.vstr.injEq]
    intro hh
    exact h hh.symm

/-- The source-unmatched table of a successful merge holds exactly one row
per source row whose join key matches no target row, namely that row's
merged form. -/
theorem suOf_rows (s t : DF) (jc : List String) (merged : DF)
    (hm : outerMerge s t jc = .ok merged)
    (hms : "_merge" ∉ s.colNames) (hmt : "_merge" ∉ t.colNames) :
    (suOf merged).rows =
      (s.rows.filter (fun r =>
        (t.rows.filter (fun tr => keyOf t jc tr == keyOf s jc r)).isEmpty)).map
        (fun r => mRow s t jc (some r) none) := by
  rw [outerMerge_ok_struct s t jc merged hm]
  show ((mergeLeftRows s t jc s.rows ++ mergeRightOnlyRows s t jc).filter
      (fun mr => lookupVal
        (mergedHeader s t jc ++ [{ name := "_merge", dtype := DType.dtObj }])
        mr "_merge" == Value.vstr "left_only")).map
      (fun mr => dropColVals
        (mergedHeader s t jc ++ [{ name := "_merge", dtype := DType.dtObj }])
        mr "_merge") = _
  rw [List.filter_append, filter_mergeLeftRows_leftonly s t jc hms hmt,
    filter_mergeRightOnlyRows s t jc hms hmt, if_neg (by decide), List.append_nil,
    List.map_map]
  apply List.map_congr_left
  intro r _
  exact dropColVals_append_merge _ _ _ _ (mergedHeader_no_merge s t jc hms hmt) rfl
    ((mRow_length s t jc (some r) none).trans (mergedHeader_length s t jc).symm)

/-- The target-unmatched table of a successful merge holds exactly one row
per target row whose join key matches no source row. -/
theorem tuOf_rows (s t : DF) (jc : List String) (merged : DF)
    (hm : outerMerge s t jc = .ok merged)
    (hms : "_merge" ∉ s.colNames) (hmt : "_merge" ∉ t.colNames) :
    (tuOf merged).rows =
      (t.rows.filter (fun tr =>
        !(s.rows.any (fun r => keyOf s jc r == keyOf t jc tr)))).map
        (fun tr => mRow s t jc none (some tr)) := by
  rw [outerMerge_ok_struct s t jc merged hm]
  show ((mergeLeftRows s t jc s.rows ++ mergeRightOnlyRows s t jc).filter
      (fun mr => lookupVal
        (mergedHeader s t jc ++ [{ name := "_merge", dtype := DType.dtObj }])
        mr "_merge" == Value.vstr "right_only")).map
      (fun mr => dropColVals
        (mergedHeader s t jc ++ [{ name := "_merge", dtype := DType.dtObj }])
        mr "_merge") = _
  rw [List.filter_append, filter_mergeLeftRows_rightonly s t jc hms hmt,
    filter_mergeRightOnlyRows s t jc hms hmt, if_pos rfl, List.nil_append,
    mergeRightOnlyRows, List.map_map]
  apply List.map_congr_left
  intro tr _
  exact dropColVals_append_merge _ _ _ _ (mergedHeader_no_merge s t jc hms hmt) rfl
    ((mRow_length s t jc none (some tr)).trans (mergedHeader_length s t jc).symm)

/-- The source-unmatched table keeps the merged header (minus the
indicator). -/
theorem suOf_header (s t : DF) (jc : List String) (merged : DF)
    (hm : outerMerge s t jc = .ok merged)
    (hms : "_merge" ∉ s.colNames) (hmt : "_merge" ∉ t.colNames) :
    (suOf merged).header = mergedHeader s t jc := by
  rw [outerMerge_ok_struct s t jc merged hm]
  show ((mergedHeader s t jc ++
      [({ name := "_merge", dtype := DType.dtObj } : ColMeta)]).filter
      (fun m => !(m.name == "_merge"))) = _
  rw [List.filter_append]
  have h1 : (mergedHeader s t jc).filter (fun m => !(m.name == "_merge")) =
      mergedHeader s t jc := by
    apply List.filter_eq_self.mpr
    intro m hmm
    simpa using mergedHeader_no_merge s t jc hms hmt m hmm
  have h2 : ([{ name := "_merge", dtype := DType.dtObj }] : List ColMeta).filter
      (fun m => !(m.name == "_merge")) = [] := by decide
  rw [h1, h2, List.append_nil]

/-- The target-unmatched table keeps the merged header (minus the
indicator). -/
theorem tuOf_header (s t : DF) (jc : List String) (merged : DF)
    (hm : outerMerge s t jc = .ok merged)
    (hms : "_merge" ∉ s.colNames) (hmt : "_merge" ∉ t.colNames) :
    (tuOf merged).header = mergedHeader s t jc := by
  rw [outerMerge_ok_struct s t jc merged hm]
  show ((mergedHeader s t jc ++
      [({ name := "_merge", dtype := DType.dtObj } : ColMeta)]).filter
      (fun m => !(m.name == "_merge"))) = _
  rw [List.filter_append]
  have h1 : (mergedHeader s t jc).filter (fun m => !(m.name == "_merge")) =
      mergedHeader s t jc := by
    apply List.filter_eq_self.mpr
    intro m hmm
    simpa using mergedHeader_no_merge s t jc hms hmt m hmm
  have h2 : ([{ name := "_merge", dtype := DType.dtObj }] : List ColMeta).filter
      (fun m => !(m.name == "_merge")) = [] := by decide
  rw [h1, h2, List.append_nil]

/-- Reading a well-formed row back through its own header is the
identity. -/
theorem lookupVal_self (hdr : List ColMeta) (r : List Value)
    (hnd : (hdr.map (·.name)).Nodup) (hlen : r.length = hdr.length) :
    hdr.map (fun m => lookupVal hdr r m.name) = r := by
  induction hdr generalizing r with
  | nil =>
    have : r = [] := List.length_eq_zero.mp (by simpa using hlen)
    subst this
    rfl
  | cons m ms ih =>
    cases r with
    | nil => exact absurd hlen (by simp)
    | cons v vs =>
      rw [List.map_cons]
      rw [List.map_cons, List.nodup_cons] at hnd
      have hlen2 : vs.length = ms.length := by simpa using hlen
      have hhead : lookupVal (m :: ms) (v :: vs) m.name = v := by
        show (if m.name == m.name then v else lookupVal ms vs m.name) = v
        simp
      rw [hhead]
      congr 1
      have hcongr : ∀ m2 ∈ ms,
          lookupVal (m :: ms) (v :: vs) m2.name = lookupVal ms vs m2.name := by
        intro m2 hm2
        have hne : ¬ m.name = m2.name := by
          intro hh
          exact hnd.1 (hh ▸ List.mem_map_of_mem (·.name) hm2)
        show (if m.name == m2.name then v else lookupVal ms vs m2.name) = _
        rw [if_neg (by simpa using hne)]
      rw [List.map_congr_left hcongr]
      exact ih vs hnd.2 hlen2

/-- Reading a header-mapped row by name finds the image of the first
matching column. -/
theorem lookupVal_map (hdr : List ColMeta) (f : ColMeta → Value) (n : String) :
    lookupVal hdr (hdr.map f) n =
      match hdr.find? (fun m => m.name == n) with
      | some m => f m
      | none => Value.vnull := by
  induction hdr with
  | nil => rfl
  | cons m ms ih =>
    rw [List.map_cons]
    show (if m.name == n then f m else lookupVal ms (ms.map f) n) = _
    cases h : (m.name == n) with
    | true =>
      rw [if_pos rfl]
      have hfind : List.find? (fun m2 => m2.name == n) (m :: ms) = some m := by
        simp [List.find?, h]
      rw [hfind]
    | false =>
      rw [if_neg (by simp)]
      have hfind : List.find? (fun m2 => m2.name == n) (m :: ms) =
          List.find? (fun m2 => m2.name == n) ms := by
        simp [List.find?, h]
      rw [hfind]
      exact ih

/-- The left block of a left-driven merged row: every cell read from the
source row. -/
theorem mRow_some_take (s t : DF) (jc : List String) (r : List Value) :
    (mRow s t jc (some r) none).take s.header.length =
      s.header.map (fun m => lookupVal s.header r m.name) := by
  show ((s.header.map (fun m => lookupVal s.header r m.name)) ++
    ((t.header.filter (fun m => !(jc.contains m.name))).map
      (fun _ => Value.vnull))).take s.header.length = _
  have h := List.take_left (s.header.map (fun m => lookupVal s.header r m.name))
    ((t.header.filter (fun m => !(jc.contains m.name))).map (fun _ => Value.vnull))
  rw [List.length_map] at h
  exact h

/-- The right block of a left-driven merged row is all nulls. -/
theorem mRow_some_drop (s t : DF) (jc : List String) (r : List Value) :
    (mRow s t jc (some r) none).drop s.header.length =
      List.replicate
        ((t.header.filter (fun m => !(jc.contains m.name))).length) Value.vnull := by
  show ((s.header.map (fun m => lookupVal s.header r m.name)) ++
    ((t.header.filter (fun m => !(jc.contains m.name))).map
      (fun _ => Value.vnull))).drop s.header.length = _
  have h := List.drop_left (s.header.map (fun m => lookupVal s.header r m.name))
    ((t.header.filter (fun m => !(jc.contains m.name))).map (fun _ => Value.vnull))
  rw [List.length_map] at h
  rw [h]
  exact List.map_const' _ Value.vnull

/-- The left block of a right-only merged row: join cells from the target
row, everything else null. -/
theorem mRow_none_take (s t : DF) (jc : List String) (tr : List Value) :
    (mRow s t jc none (some tr)).take s.header.length =
      s.header.map (fun m =>
        if jc.contains m.name then lookupVal t.header tr m.name
        else Value.vnull) := by
  show ((s.header.map (fun m =>
      if jc.contains m.name then lookupVal t.header tr m.name else Value.vnull)) ++
    ((t.header.filter (fun m => !(jc.contains m.name))).map
      (fun m => lookupVal t.header tr m.name))).take s.header.length = _
  have h := List.take_left (s.header.map (fun m =>
      if jc.contains m.name then lookupVal t.header tr m.name else Value.vnull))
    ((t.header.filter (fun m => !(jc.contains m.name))).map
      (fun m => lookupVal t.header tr m.name))
  rw [List.length_map] at h
  exact h

/-- The right block of a right-only merged row: the target row's non-join
cells. -/
theorem mRow_none_drop (s t : DF) (jc : List String) (tr : List Value) :
    (mRow s t jc none (some tr)).drop s.header.length =
      (t.header.filter (fun m => !(jc.contains m.name))).map
        (fun m => lookupVal t.header tr m.name) := by
  show ((s.header.map (fun m =>
      if jc.contains m.name then lookupVal t.header tr m.name else Value.vnull)) ++
    ((t.header.filter (fun m => !(jc.contains m.name))).map
      (fun m => lookupVal t.header tr m.name))).drop s.header.length = _
  have h := List.drop_left (s.header.map (fun m =>
      if jc.contains m.name then lookupVal t.header tr m.name else Value.vnull))
    ((t.header.filter (fun m => !(jc.contains m.name))).map
      (fun m => lookupVal t.header tr m.name))
  rw [List.length_map] at h
  exact h

/-- Projecting a right-only merged row onto the target columns recovers
the originating target row. -/
theorem projTgt_mRow (s t : DF) (jc : List String) (tr : List Value)
    (hnt : t.colNames.Nodup) (hlen : tr.length = t.header.length)
    (hkeys : ∀ c ∈ jc, c ∈ s.colNames) :
    projTgt s t jc (mRow s t jc none (some tr)) = tr := by
  unfold projTgt
  rw [mRow_none_take s t jc tr, mRow_none_drop s t jc tr]
  have hcongr : ∀ m0 ∈ t.header,
      (if jc.contains m0.name then
        lookupVal s.header
          (s.header.map (fun m =>
            if jc.contains m.name then lookupVal t.header tr m.name
            else Value.vnull)) m0.name
      else
        lookupVal (t.header.filter (fun m2 => !(jc.contains m2.name)))
          ((t.header.filter (fun m => !(jc.contains m.name))).map
            (fun m => lookupVal t.header tr m.name)) m0.name) =
      lookupVal t.header tr m0.name := by
    intro m0 hm0
    cases hj : jc.contains m0.name with
    | true =>
      rw [if_pos rfl]
      rw [lookupVal_map]
      have hmem : m0.name ∈ s.colNames :=
        hkeys m0.name (by simpa using hj)
      cases hf : s.header.find? (fun m => m.name == m0.name) with
      | none =>
        exfalso
        rw [DF.colNames, List.mem_map] at hmem
        obtain ⟨m1, hm1, hname⟩ := hmem
        have := List.find?_eq_none.mp hf m1 hm1
        simp [hname] at this
      | some m1 =>
        have hname := List.find?_some hf
        simp only [beq_iff_eq] at hname
        simp only [hname, hj, if_true]
    | false =>
      rw [if_neg (by simp [hj])]
      rw [lookupVal_map]
      have hmem : m0 ∈ t.header.filter (fun m => !(jc.contains m.name)) := by
        rw [List.mem_filter]
        exact ⟨hm0, by simp only [hj, Bool.not_false]⟩
      cases hf : (t.header.filter (fun m2 => !(jc.contains m2.name))).find?
          (fun m => m.name == m0.name) with
      | none =>
        exfalso
        have := List.find?_eq_none.mp hf m0 hmem
        simp at this
      | some m1 =>
        have hname := List.find?_some hf
        simp only [beq_iff_eq] at hname
        simp only [hname]
  rw [List.map_congr_left hcongr]
  exact lookupVal_self t.header tr hnt hlen

/-- Emptiness of a filtered list is the negation of an existence test. -/
theorem filter_isEmpty_not_any {α : Type} (l : List α) (p : α → Bool) :
    (l.filter p).isEmpty = !(l.any p) := by
  induction l with
  | nil => rfl
  | cons a l ih => cases h : p a <;> simp [List.filter_cons, h, ih]

/-- C3.  When `join_columns` is non-empty and the reconciliation step runs
successfully, projecting the source-unmatched rows back onto the source
columns yields EXACTLY the source rows whose join key matches no target
row (one output row per such source row, in order, so each appears exactly
once and matched rows appear in neither table); symmetrically for the
target side via the positional projection `projTgt`.  Hypotheses: the
prepared frames have uniquely named columns, no column named `_merge`
(pandas raises on an indicator clash), and well-formed row lengths. -/
theorem claim_C3_reconciliation (e : Engine) (s t : DF) (r : Results)
    (merged : DF)
    (hp : prepareDataframes e = .ok (s, t))
    (hr : compare e = .ok r)
    (hj : e.join_columns.isEmpty = false)
    (hm : outerMerge s t e.join_columns = .ok merged)
    (hms : "_merge" ∉ s.colNames) (hmt : "_merge" ∉ t.colNames)
    (hns : s.colNames.Nodup) (hnt : t.colNames.Nodup)
    (hws : ∀ row ∈ s.rows, row.length = s.header.length)
    (hwt : ∀ row ∈ t.rows, row.length = t.header.length) :
    r.source_unmatched_rows.rows.map (fun mr => mr.take s.header.length) =
      s.rows.filter (fun row =>
        !(t.rows.any (fun tr =>
          keyOf t e.join_columns tr == keyOf s e.join_columns row))) ∧
    r.target_unmatched_rows.rows.map (projTgt s t e.join_columns) =
      t.rows.filter (fun tr =>
        !(s.rows.any (fun row =>
          keyOf s e.join_columns row == keyOf t e.join_columns tr))) := by
  cases hsum : generateColumnSummary e.join_columns s t with
  | error msg =>
    rw [compare_summary_error e s t msg hp hsum] at hr
    exact absurd hr (by simp)
  | ok summary =>
    rw [compare_merged e s t summary merged hp hsum hj hm] at hr
    cases hr
    constructor
    · show (suOf merged).rows.map (fun mr => mr.take s.header.length) = _
      rw [suOf_rows s t e.join_columns merged hm hms hmt, List.map_map]
      have hcongr : ∀ row ∈ s.rows.filter (fun r2 =>
          (t.rows.filter (fun tr =>
            keyOf t e.join_columns tr == keyOf s e.join_columns r2)).isEmpty),
          ((fun mr => mr.take s.header.length) ∘
            (fun r2 => mRow s t e.join_columns (some r2) none)) row = id row := by
        intro row hrow
        have hmem := List.mem_of_mem_filter hrow
        show (mRow s t e.join_columns (some row) none).take s.header.length = row
        rw [mRow_some_take]
        exact lookupVal_self s.header row hns (hws row hmem)
      rw [List.map_congr_left hcongr, List.map_id]
      apply List.filter_congr
      intro row _
      exact filter_isEmpty_not_any t.rows
        (fun tr => keyOf t e.join_columns tr == keyOf s e.join_columns row)
    · show (tuOf merged).rows.map (projTgt s t e.join_columns) = _
      rw [tuOf_rows s t e.join_columns merged hm hms hmt, List.map_map]
      have hkeys : ∀ c ∈ e.join_columns, c ∈ s.colNames :=
        fun c hc => (outerMerge_ok_keys s t e.join_columns merged hm c hc).1
      have hcongr : ∀ tr ∈ t.rows.filter (fun tr =>
          !(s.rows.any (fun r2 =>
            keyOf s e.join_columns r2 == keyOf t e.join_columns tr))),
          (projTgt s t e.join_columns ∘
            (fun tr => mRow s t e.join_columns none (some tr))) tr = id tr := by
        intro tr htr
        have hmem := List.mem_of_mem_filter htr
        show projTgt s t e.join_columns (mRow s t e.join_columns none (some tr)) = tr
        exact projTgt_mRow s t e.join_columns tr hnt (hwt tr hmem) hkeys
      rw [List.map_congr_left hcongr, List.map_id]

/-- C3, witness: spec Scenario A — `id=3` is unmatched in the source,
`id=4` in the target — instantiating every hypothesis concretely. -/
theorem claim_C3_witness :
    prepareDataframes eScA = .ok (dfScAs, dfScAt) ∧
    compare eScA = .ok (resOf eScA) ∧
    eScA.join_columns.isEmpty = false ∧
    outerMerge dfScAs dfScAt eScA.join_columns =
      .ok (mergedOf dfScAs dfScAt eScA.join_columns) ∧
    ((resOf eScA).source_unmatched_rows.rows.map
        (fun mr => mr.take dfScAs.header.length) =
      dfScAs.rows.filter (fun row =>
        !(dfScAt.rows.any (fun tr =>
          keyOf dfScAt eScA.join_columns tr == keyOf dfScAs eScA.join_columns row))) ∧
     (resOf eScA).target_unmatched_rows.rows.map
        (projTgt dfScAs dfScAt eScA.join_columns) =
      dfScAt.rows.filter (fun tr =>
        !(dfScAs.rows.any (fun row =>
          keyOf dfScAs eScA.join_columns row == keyOf dfScAt eScA.join_columns tr)))) :=
  ⟨rfl, rfl, rfl, rfl,
    claim_C3_reconciliation eScA dfScAs dfScAt (resOf eScA)
      (mergedOf dfScAs dfScAt eScA.join_columns) rfl rfl rfl rfl
      (by decide) (by decide) (by decide) (by decide)
      (by decide) (by decide)⟩

/-- A successful column selection returns exactly the requested names. -/
theorem selectCols_colNames (df : DF) (names : List String) (out : DF)
    (h : selectCols df names = .ok out) : out.colNames = names := by
  unfold selectCols at h
  by_cases hg : names.all (fun n => df.colNames.contains n)
  · rw [if_pos hg] at h
    rw [← Except.ok.inj h]
    show (names.map (fun n => ({ name := n, dtype := df.colDtype n } : ColMeta))).map
      (·.name) = names
    rw [List.map_map]
    have hc : ∀ n ∈ names,
        ((fun m : ColMeta => m.name) ∘
          (fun n => ({ name := n, dtype := df.colDtype n } : ColMeta))) n = id n :=
      fun n _ => rfl
    rw [List.map_congr_left hc, List.map_id]
  · rw [if_neg hg] at h
    exact absurd h (by simp)

/-- Decomposition of a successful `_prepare_dataframes` run. -/
theorem prepare_ok_parts (e : Engine) (s t : DF)
    (hp : prepareDataframes e = .ok (s, t)) :
    ∃ t0,
      selectCols e.source_df
        ((e.mapping.filter (fun m => !m.exclude)).map (·.source)) = .ok s ∧
      selectCols e.target_df
        ((e.mapping.filter (fun m => !m.exclude)).map (·.target)) = .ok t0 ∧
      t = renameCols t0
        (((e.mapping.filter (fun m => !m.exclude)).filter
          (fun m => !(m.target == ""))).map (fun m => (m.target, m.source))) := by
  unfold prepareDataframes at hp
  by_cases hmp : e.mapping.isEmpty
  · rw [if_pos hmp] at hp
    exact absurd hp (by simp)
  · rw [if_neg hmp] at hp
    dsimp only at hp
    cases hs : selectCols e.source_df
        ((e.mapping.filter (fun m => !m.exclude)).map (·.source)) with
    | error msg => rw [hs] at hp; exact absurd hp (by simp)
    | ok src =>
      rw [hs] at hp
      cases ht0 : selectCols e.target_df
          ((e.mapping.filter (fun m => !m.exclude)).map (·.target)) with
      | error msg => rw [ht0] at hp; exact absurd hp (by simp)
      | ok t0 =>
        rw [ht0] at hp
        simp only at hp
        injection hp with hpair
        injection hpair with h1 h2
        subst h1
        exact ⟨t0, rfl, rfl, h2.symm⟩

/-- The prepared source columns are the kept mapping entries' source
names, in order. -/
theorem prepare_source_colNames (e : Engine) (s t : DF)
    (hp : prepareDataframes e = .ok (s, t)) :
    s.colNames = (e.mapping.filter (fun m => !m.exclude)).map (·.source) := by
  obtain ⟨t0, hs, _, _⟩ := prepare_ok_parts e s t hp
  exact selectCols_colNames _ _ _ hs

/-- Renaming maps each column name through the dict. -/
theorem renameCols_colNames (df : DF) (ren : List (String × String)) :
    (renameCols df ren).colNames = df.header.map (fun m =>
      match pyDict ren m.name with
      | some n2 => n2
      | none => m.name) := by
  unfold renameCols DF.colNames
  rw [List.map_map]
  apply List.map_congr_left
  intro m _
  show ((match pyDict ren m.name with
        | some n2 => { m with name := n2 }
        | none => m) : ColMeta).name = _
  cases pyDict ren m.name <;> rfl

/-- A found dict binding is one of the dict's pairs. -/
theorem pyDict_some_mem (l : List (String × String)) (k v : String)
    (h : pyDict l k = some v) : ∃ p ∈ l, p.1 = k ∧ p.2 = v := by
  unfold pyDict at h
  cases hfind : l.reverse.find? (fun p => p.1 == k) with
  | none => rw [hfind] at h; exact absurd h (by simp)
  | some p =>
    rw [hfind] at h
    refine ⟨p, List.mem_reverse.mp (List.mem_of_find?_eq_some hfind), ?_, ?_⟩
    · simpa using List.find?_some hfind
    · simpa using h

/-- A dict lookup succeeds when some pair carries the key. -/
theorem pyDict_isSome (l : List (String × String)) (k : String)
    (h : ∃ p ∈ l, p.1 = k) : ∃ v, pyDict l k = some v := by
  obtain ⟨p, hp, hk⟩ := h
  unfold pyDict
  cases hfind : l.reverse.find? (fun q => q.1 == k) with
  | none =>
    exfalso
    have := List.find?_eq_none.mp hfind p (List.mem_reverse.mpr hp)
    simp [hk] at this
  | some q => exact ⟨q.2, rfl⟩

/-- When every kept entry has a truthy target, every prepared target
column is named by some kept entry's source. -/
theorem prepare_target_colNames_sub (e : Engine) (s t : DF)
    (hp : prepareDataframes e = .ok (s, t))
    (ht : ∀ m2 ∈ e.mapping, m2.exclude = false → m2.target ≠ "") :
    ∀ n ∈ t.colNames, ∃ m2 ∈ e.mapping, m2.exclude = false ∧ n = m2.source := by
  obtain ⟨t0, hsel, ht0, rfl⟩ := prepare_ok_parts e s t hp
  intro n hn
  rw [renameCols_colNames, List.mem_map] at hn
  obtain ⟨m0, hm0, hname⟩ := hn
  have hm0name : m0.name ∈ t0.colNames := List.mem_map_of_mem (·.name) hm0
  rw [selectCols_colNames _ _ _ ht0, List.mem_map] at hm0name
  obtain ⟨m2, hm2k, hm2t⟩ := hm0name
  rw [List.mem_filter] at hm2k
  have hm2ex : m2.exclude = false := by
    have h2 := hm2k.2
    cases hq : m2.exclude
    · rfl
    · rw [hq] at h2; exact absurd h2 (by simp)
  have hm2ne : m2.target ≠ "" := ht m2 hm2k.1 hm2ex
  have hmem : (m2.target, m2.source) ∈
      ((e.mapping.filter (fun m => !m.exclude)).filter
        (fun m => !(m.target == ""))).map (fun m => (m.target, m.source)) := by
    rw [List.mem_map]
    refine ⟨m2, ?_, rfl⟩
    rw [List.mem_filter]
    exact ⟨by rw [List.mem_filter]; exact hm2k, by simpa using hm2ne⟩
  obtain ⟨v, hv⟩ := pyDict_isSome _ m0.name ⟨(m2.target, m2.source), hmem, hm2t⟩
  rw [hv] at hname
  obtain ⟨p, hpmem, hp1, hp2⟩ := pyDict_some_mem _ _ _ hv
  rw [List.mem_map] at hpmem
  obtain ⟨m3, hm3, hm3eq⟩ := hpmem
  rw [List.mem_filter, List.mem_filter] at hm3
  have hm3ex : m3.exclude = false := by
    have h3 := hm3.1.2
    cases hq : m3.exclude
    · rfl
    · rw [hq] at h3; exact absurd h3 (by simp)
  refine ⟨m3, hm3.1.1, hm3ex, ?_⟩
  have hpsnd : m3.source = v := by rw [← hp2, ← hm3eq]
  rw [← hname, ← hpsnd]

/-- Every key produced by the summary loop is one of the iterated
columns. -/
theorem buildSummary_keys (s t : DF) (cs : List String)
    (l : List (String × ColSummary)) (h : buildSummary s t cs = .ok l) :
    ∀ p ∈ l, p.1 ∈ cs := by
  induction cs generalizing l with
  | nil =>
    have : l = [] := (Except.ok.inj h).symm
    subst this
    simp
  | cons c cs ih =>
    rw [buildSummary] at h
    by_cases hc : t.colNames.contains c
    · rw [if_pos hc] at h
      cases hrec : buildSummary s t cs with
      | error msg => rw [hrec] at h; exact absurd h (by simp)
      | ok rest =>
        rw [hrec] at h
        have : l = (c, mkColSummary s t c) :: rest := (Except.ok.inj h).symm
        subst this
        intro p hp
        rw [List.mem_cons] at hp
        cases hp with
        | inl h1 => rw [h1]; simp
        | inr h2 => exact List.mem_cons_of_mem _ (ih rest hrec p h2)
    · rw [if_neg hc] at h
      exact absurd h (by simp)

/-- Every merged-header name is a source name, a target name, or one of
them carrying a merge suffix. -/
theorem mergedHeader_names (s t : DF) (jc : List String) :
    ∀ m ∈ mergedHeader s t jc,
      (∃ c ∈ s.colNames, m.name = c ∨ m.name = c ++ "_x") ∨
      (∃ c ∈ t.colNames, m.name = c ∨ m.name = c ++ "_y") := by
  intro m hm
  rw [mergedHeader, List.mem_append] at hm
  cases hm with
  | inl hl =>
    rw [List.mem_map] at hl
    obtain ⟨m1, hm1, rfl⟩ := hl
    left
    refine ⟨m1.name, List.mem_map_of_mem (·.name) hm1, ?_⟩
    by_cases hj : jc.contains m1.name
    · rw [if_pos hj]; exact Or.inl rfl
    · rw [if_neg hj]
      by_cases hsh : t.colNames.contains m1.name
      · rw [if_pos hsh]; exact Or.inr rfl
      · rw [if_neg hsh]; exact Or.inl rfl
  | inr hr =>
    rw [List.mem_map] at hr
    obtain ⟨m2, hm2, rfl⟩ := hr
    right
    refine ⟨m2.name,
      List.mem_map_of_mem (·.name) (List.mem_of_mem_filter hm2), ?_⟩
    by_cases hsh : s.colNames.contains m2.name
    · rw [if_pos hsh]; exact Or.inr rfl
    · rw [if_neg hsh]; exact Or.inl rfl

/-- Every column name of `suOf`/`tuOf` output is a merged-header name
other than the indicator. -/
theorem dropMerge_colNames_sub (merged : DF) (p : List Value → Bool) (n : String)
    (hn : n ∈ (DF.dropCol (DF.filterRows merged p) "_merge").colNames) :
    ∃ mm ∈ merged.header, mm.name = n ∧ n ≠ "_merge" := by
  rw [DF.dropCol, DF.colNames] at hn
  simp only [List.mem_map] at hn
  obtain ⟨mm, hmm, rfl⟩ := hn
  rw [List.mem_filter] at hmm
  refine ⟨mm, hmm.1, rfl, ?_⟩
  have h2 := hmm.2
  intro hq
  rw [hq] at h2
  simp at h2

/-- Booleanized exclusion flags. -/
theorem exclude_false_of_bnot (m2 : MapEntry) (h : (!m2.exclude) = true) :
    m2.exclude = false := by
  cases hq : m2.exclude
  · rfl
  · rw [hq] at h; exact absurd h (by simp)

/-- C6, counterexample.  The mapping excludes the column named `v_x`, yet
`v_x` appears as a column of both unmatched-row tables: the retained
shared column `v` is merge-suffixed to exactly that name. -/
theorem claim_C6_counterexample :
    (eC6.mapping.any (fun m => m.exclude && (m.source == "v_x"))) = true ∧
    compare eC6 = .ok (resOf eC6) ∧
    "v_x" ∈ (resOf eC6).source_unmatched_rows.colNames ∧
    "v_x" ∈ (resOf eC6).target_unmatched_rows.colNames := by
  refine ⟨by decide, rfl, by decide, by decide⟩

/-- C6, amended.  No excluded column appears among the keys of
`column_summary` or `distinct_values` or among the columns of either
unmatched-row table, PROVIDED no excluded source name collides with a
non-excluded source name — plain, or carrying the merge suffix `_x` or
`_y` — and every non-excluded entry has a non-empty target. -/
theorem claim_C6_exclusion_amended (e : Engine) (s t : DF) (r : Results)
    (hp : prepareDataframes e = .ok (s, t))
    (hr : compare e = .ok r)
    (hx : ∀ m ∈ e.mapping, m.exclude = true →
      ∀ m2 ∈ e.mapping, m2.exclude = false →
        m.source ≠ m2.source ∧ m.source ≠ m2.source ++ "_x" ∧
        m.source ≠ m2.source ++ "_y")
    (ht : ∀ m2 ∈ e.mapping, m2.exclude = false → m2.target ≠ "") :
    ∀ m ∈ e.mapping, m.exclude = true →
      (∀ p ∈ r.column_summary, p.1 ≠ m.source) ∧
      (∀ p ∈ r.distinct_values, p.1 ≠ m.source) ∧
      m.source ∉ r.source_unmatched_rows.colNames ∧
      m.source ∉ r.target_unmatched_rows.colNames := by
  intro m hm hex
  have hsrc : ∀ c ∈ s.colNames,
      m.source ≠ c ∧ m.source ≠ c ++ "_x" ∧ m.source ≠ c ++ "_y" := by
    intro c hc
    rw [prepare_source_colNames e s t hp, List.mem_map] at hc
    obtain ⟨m2, hm2, rfl⟩ := hc
    rw [List.mem_filter] at hm2
    exact hx m hm hex m2 hm2.1 (exclude_false_of_bnot m2 hm2.2)
  have htgt : ∀ c ∈ t.colNames,
      m.source ≠ c ∧ m.source ≠ c ++ "_x" ∧ m.source ≠ c ++ "_y" := by
    intro c hc
    obtain ⟨m2, hm2, hm2ex, rfl⟩ := prepare_target_colNames_sub e s t hp ht c hc
    exact hx m hm hex m2 hm2 hm2ex
  have hmh : ∀ mm ∈ mergedHeader s t e.join_columns, mm.name ≠ m.source := by
    intro mm hmm hq
    cases mergedHeader_names s t e.join_columns mm hmm with
    | inl h1 =>
      obtain ⟨c, hc, hcc⟩ := h1
      cases hcc with
      | inl hcc => exact (hsrc c hc).1 (hq ▸ hcc ▸ rfl)
      | inr hcc => exact (hsrc c hc).2.1 (hq ▸ hcc ▸ rfl)
    | inr h2 =>
      obtain ⟨c, hc, hcc⟩ := h2
      cases hcc with
      | inl hcc => exact (htgt c hc).1 (hq ▸ hcc ▸ rfl)
      | inr hcc => exact (htgt c hc).2.2 (hq ▸ hcc ▸ rfl)
  cases hsum : generateColumnSummary e.join_columns s t with
  | error msg =>
    rw [compare_summary_error e s t msg hp hsum] at hr
    exact absurd hr (by simp)
  | ok summary =>
    have hsummem : ∀ p ∈ summary, p.1 ≠ m.source := by
      intro p hp2
      have hmem := buildSummary_keys s t (summaryCols e.join_columns s)
        summary hsum p hp2
      have hmem2 : p.1 ∈ s.colNames := List.mem_of_mem_filter hmem
      exact fun hq => (hsrc p.1 hmem2).1 hq.symm
    have hdv : ∀ p ∈ getDistinctValues e none, p.1 ≠ m.source := by
      intro p hp2
      obtain ⟨c, info⟩ := p
      have hmem := (getDistinctValues_mem e none s t c info hp hp2).1
      exact fun hq => (hsrc c hmem).1 hq.symm
    have hsu : ∀ merged, outerMerge s t e.join_columns = .ok merged →
        m.source ∉ (suOf merged).colNames ∧
        m.source ∉ (tuOf merged).colNames := by
      intro merged hmg
      constructor
      · intro hmem
        obtain ⟨mm, hmm, hmmname, hne⟩ :=
          dropMerge_colNames_sub merged _ m.source hmem
        rw [outerMerge_ok_struct s t e.join_columns merged hmg] at hmm
        rw [List.mem_append] at hmm
        cases hmm with
        | inl h1 => exact hmh mm h1 hmmname
        | inr h2 =>
          rw [List.mem_singleton] at h2
          rw [h2] at hmmname
          exact hne hmmname.symm
      · intro hmem
        obtain ⟨mm, hmm, hmmname, hne⟩ :=
          dropMerge_colNames_sub merged _ m.source hmem
        rw [outerMerge_ok_struct s t e.join_columns merged hmg] at hmm
        rw [List.mem_append] at hmm
        cases hmm with
        | inl h1 => exact hmh mm h1 hmmname
        | inr h2 =>
          rw [List.mem_singleton] at h2
          rw [h2] at hmmname
          exact hne hmmname.symm
    cases hj : e.join_columns.isEmpty with
    | true =>
      rw [compare_nojoin e s t summary hp hsum hj] at hr
      cases hr
      exact ⟨hsummem, hdv, by simp [emptyDF, DF.colNames],
        by simp [emptyDF, DF.colNames]⟩
    | false =>
      cases hmg : outerMerge s t e.join_columns with
      | error msg =>
        rw [compare_merge_error e s t summary msg hp hsum hj hmg] at hr
        cases hr
        exact ⟨hsummem, hdv, by simp [emptyDF, DF.colNames],
          by simp [emptyDF, DF.colNames]⟩
      | ok merged =>
        rw [compare_merged e s t summary merged hp hsum hj hmg] at hr
        cases hr
        exact ⟨hsummem, hdv, (hsu merged hmg).1, (hsu merged hmg).2⟩

/-- C6, witness: a clean run excluding column `w` (join on `id`, shared
column `v`), with every hypothesis concretely discharged. -/
theorem claim_C6_witness :
    prepareDataframes eC6w =
      .ok ({ header := [⟨"id", DType.dtInt⟩, ⟨"v", DType.dtObj⟩],
             rows := [[Value.vint 1, Value.vstr "s"]] },
           { header := [⟨"id", DType.dtInt⟩, ⟨"v", DType.dtObj⟩],
             rows := [[Value.vint 1, Value.vstr "s"]] }) ∧
    compare eC6w = .ok (resOf eC6w) ∧
    (∀ m ∈ eC6w.mapping, m.exclude = true →
      (∀ p ∈ (resOf eC6w).column_summary, p.1 ≠ m.source) ∧
      (∀ p ∈ (resOf eC6w).distinct_values, p.1 ≠ m.source) ∧
      m.source ∉ (resOf eC6w).source_unmatched_rows.colNames ∧
      m.source ∉ (resOf eC6w).target_unmatched_rows.colNames) :=
  ⟨rfl, rfl,
    claim_C6_exclusion_amended eC6w
      { header := [⟨"id", DType.dtInt⟩, ⟨"v", DType.dtObj⟩],
        rows := [[Value.vint 1, Value.vstr "s"]] }
      { header := [⟨"id", DType.dtInt⟩, ⟨"v", DType.dtObj⟩],
        rows := [[Value.vint 1, Value.vstr "s"]] }
      (resOf eC6w) rfl rfl (by decide) (by decide)⟩

/-- A retained shared non-join column contributes its `_x`-suffixed name
to the merged header. -/
theorem mergedHeader_mem_x (s t : DF) (jc : List String) (c : String)
    (hcs : c ∈ s.colNames) (hct : c ∈ t.colNames)
    (hcj : jc.contains c = false) :
    (c ++ "_x") ∈ (mergedHeader s t jc).map (·.name) := by
  rw [DF.colNames, List.mem_map] at hcs
  obtain ⟨m1, hm1, hname⟩ := hcs
  rw [mergedHeader, List.map_append, List.mem_append]
  left
  rw [List.map_map, List.mem_map]
  refine ⟨m1, hm1, ?_⟩
  have hct2 : t.colNames.contains m1.name = true := by
    rw [hname]; simpa using hct
  have hcj2 : jc.contains m1.name = false := by rw [hname]; exact hcj
  show ((if jc.contains m1.name then m1
        else if t.colNames.contains m1.name then { m1 with name := m1.name ++ "_x" }
        else m1) : ColMeta).name = c ++ "_x"
  rw [if_neg (by rw [hcj2]; simp), if_pos hct2]
  rw [← hname]

/-- A retained shared non-join column contributes its `_y`-suffixed name
to the merged header. -/
theorem mergedHeader_mem_y (s t : DF) (jc : List String) (c : String)
    (hcs : c ∈ s.colNames) (hct : c ∈ t.colNames)
    (hcj : jc.contains c = false) :
    (c ++ "_y") ∈ (mergedHeader s t jc).map (·.name) := by
  rw [DF.colNames, List.mem_map] at hct
  obtain ⟨m2, hm2, hname⟩ := hct
  rw [mergedHeader, List.map_append, List.mem_append]
  right
  rw [List.map_map, List.mem_map]
  refine ⟨m2, ?_, ?_⟩
  · rw [List.mem_filter]
    refine ⟨hm2, ?_⟩
    show (!(jc.contains m2.name)) = true
    rw [hname, hcj]
    rfl
  · have hcs2 : s.colNames.contains m2.name = true := by
      rw [hname]; simpa using hcs
    show ((if s.colNames.contains m2.name then { m2 with name := m2.name ++ "_y" }
          else m2) : ColMeta).name = c ++ "_y"
    rw [if_pos hcs2]
    rw [← hname]

/-- A shared non-join column's plain name does not survive into the merged
header, provided no other column's suffixed name collides with it. -/
theorem mergedHeader_not_mem (s t : DF) (jc : List String) (c : String)
    (hcs : c ∈ s.colNames) (hct : c ∈ t.colNames)
    (hcj : jc.contains c = false)
    (hxx : ∀ d ∈ s.colNames, c ≠ d ++ "_x")
    (hyy : ∀ d ∈ t.colNames, c ≠ d ++ "_y") :
    ∀ mm ∈ mergedHeader s t jc, mm.name ≠ c := by
  intro mm hmm hq
  rw [mergedHeader, List.mem_append] at hmm
  cases hmm with
  | inl hl =>
    rw [List.mem_map] at hl
    obtain ⟨m1, hm1, rfl⟩ := hl
    by_cases hj : jc.contains m1.name
    · rw [if_pos hj] at hq
      rw [hq] at hj
      rw [hj] at hcj
      exact absurd hcj (by simp)
    · rw [if_neg hj] at hq
      by_cases hsh : t.colNames.contains m1.name
      · rw [if_pos hsh] at hq
        exact hxx m1.name (List.mem_map_of_mem (·.name) hm1) hq.symm
      · rw [if_neg hsh] at hq
        rw [hq] at hsh
        exact hsh (by simpa using hct)
  | inr hr =>
    rw [List.mem_map] at hr
    obtain ⟨m2, hm2, rfl⟩ := hr
    by_cases hsh : s.colNames.contains m2.name
    · rw [if_pos hsh] at hq
      exact hyy m2.name
        (List.mem_map_of_mem (·.name) (List.mem_of_mem_filter hm2)) hq.symm
    · rw [if_neg hsh] at hq
      rw [hq] at hsh
      exact hsh (by simpa using hcs)

/-- C10.  When the reconciliation runs and the prepared tables share a
non-join column `c`, the unmatched tables do not carry the prepared
column vocabulary: both carry `c_x` (source side) and `c_y` (target side)
but not `c` itself (given no unrelated suffix collision); every
source-unmatched row is null across the whole target-side block, and
every target-unmatched row is null on each non-join source-side cell
(carrying target values only in join cells and the target block). -/
theorem claim_C10_suffixed_columns (e : Engine) (s t : DF) (r : Results)
    (merged : DF) (c : String)
    (hp : prepareDataframes e = .ok (s, t))
    (hr : compare e = .ok r)
    (hj : e.join_columns.isEmpty = false)
    (hm : outerMerge s t e.join_columns = .ok merged)
    (hms : "_merge" ∉ s.colNames) (hmt : "_merge" ∉ t.colNames)
    (hcs : c ∈ s.colNames) (hct : c ∈ t.colNames)
    (hcj : e.join_columns.contains c = false)
    (hxx : ∀ d ∈ s.colNames, c ≠ d ++ "_x")
    (hyy : ∀ d ∈ t.colNames, c ≠ d ++ "_y") :
    ((c ++ "_x") ∈ r.source_unmatched_rows.colNames ∧
     (c ++ "_y") ∈ r.source_unmatched_rows.colNames ∧
     c ∉ r.source_unmatched_rows.colNames) ∧
    ((c ++ "_x") ∈ r.target_unmatched_rows.colNames ∧
     (c ++ "_y") ∈ r.target_unmatched_rows.colNames ∧
     c ∉ r.target_unmatched_rows.colNames) ∧
    (∀ mr ∈ r.source_unmatched_rows.rows,
      mr.drop s.header.length =
        List.replicate
          ((t.header.filter (fun mm =>
            !(e.join_columns.contains mm.name))).length) Value.vnull) ∧
    (∀ mr ∈ r.target_unmatched_rows.rows, ∃ tr ∈ t.rows,
      mr.take s.header.length = s.header.map (fun mm =>
        if e.join_columns.contains mm.name then lookupVal t.header tr mm.name
        else Value.vnull) ∧
      mr.drop s.header.length =
        (t.header.filter (fun mm => !(e.join_columns.contains mm.name))).map
          (fun mm => lookupVal t.header tr mm.name)) := by
  cases hsum : generateColumnSummary e.join_columns s t with
  | error msg =>
    rw [compare_summary_error e s t msg hp hsum] at hr
    exact absurd hr (by simp)
  | ok summary =>
    rw [compare_merged e s t summary merged hp hsum hj hm] at hr
    cases hr
    have hnames : ∀ df0 : DF, df0.header = mergedHeader s t e.join_columns →
        (c ++ "_x") ∈ df0.colNames ∧ (c ++ "_y") ∈ df0.colNames ∧
        c ∉ df0.colNames := by
      intro df0 hdf
      rw [DF.colNames, hdf]
      refine ⟨mergedHeader_mem_x s t e.join_columns c hcs hct hcj,
        mergedHeader_mem_y s t e.join_columns c hcs hct hcj, ?_⟩
      intro hmem
      rw [List.mem_map] at hmem
      obtain ⟨mm, hmm, hname⟩ := hmem
      exact mergedHeader_not_mem s t e.join_columns c hcs hct hcj hxx hyy
        mm hmm hname
    refine ⟨hnames (suOf merged)
        (suOf_header s t e.join_columns merged hm hms hmt),
      hnames (tuOf merged)
        (tuOf_header s t e.join_columns merged hm hms hmt), ?_, ?_⟩
    · intro mr hmr
      rw [suOf_rows s t e.join_columns merged hm hms hmt, List.mem_map] at hmr
      obtain ⟨row, _, rfl⟩ := hmr
      exact mRow_some_drop s t e.join_columns row
    · intro mr hmr
      rw [tuOf_rows s t e.join_columns merged hm hms hmt, List.mem_map] at hmr
      obtain ⟨tr, htr, rfl⟩ := hmr
      exact ⟨tr, List.mem_of_mem_filter htr,
        mRow_none_take s t e.join_columns tr,
        mRow_none_drop s t e.join_columns tr⟩

/-- C10, witness: spec Scenario A with the shared non-join column `val`,
whose suffixed forms `val_x`/`val_y` appear in both unmatched tables
while `val` itself does not. -/
theorem claim_C10_witness :
    prepareDataframes eScA = .ok (dfScAs, dfScAt) ∧
    compare eScA = .ok (resOf eScA) ∧
    outerMerge dfScAs dfScAt eScA.join_columns =
      .ok (mergedOf dfScAs dfScAt eScA.join_columns) ∧
    ("val_x" ∈ (resOf eScA).source_unmatched_rows.colNames ∧
     "val_y" ∈ (resOf eScA).source_unmatched_rows.colNames ∧
     "val" ∉ (resOf eScA).source_unmatched_rows.colNames) ∧
    (∀ mr ∈ (resOf eScA).source_unmatched_rows.rows,
      mr.drop dfScAs.header.length =
        List.replicate
          ((dfScAt.header.filter (fun mm =>
            !(eScA.join_columns.contains mm.name))).length) Value.vnull) :=
  ⟨rfl, rfl, rfl,
    (claim_C10_suffixed_columns eScA dfScAs dfScAt (resOf eScA)
      (mergedOf dfScAs dfScAt eScA.join_columns) "val" rfl rfl rfl rfl
      (by decide) (by decide) (by decide) (by decide) (by decide)
      (by decide) (by decide)).1,
    (claim_C10_suffixed_columns eScA dfScAs dfScAt (resOf eScA)
      (mergedOf dfScAs dfScAt eScA.join_columns) "val" rfl rfl rfl rfl
      (by decide) (by decide) (by decide) (by decide) (by decide)
      (by decide) (by decide)).2.2.1⟩

end CompareEngine
